import Mathlib

/-!
Verification development for the core of a Rhai language-services engine.

The development shallowly embeds, in Lean:
  * the token kinds and the lexer rule set of `crates/rowan/src/syntax.rs`;
  * the HIR data model and its indexing of `crates/rhai-hir/src/hir.rs`
    and `crates/rhai-hir/src/scope.rs`;
  * the definition-file lowering of `crates/hir/src/hir/add/def.rs`;
  * the workspace driver of `crates/rhai-lsp/src/world.rs`.

External collaborators (the `logos` lexing engine, URL handling, the
parser proper) and repository code that is not part of the sources
(`hir.operators()`, `resolve_import_url`, `script_url`, `unescape`,
`OpSymbol`'s declaration, expression lowering) are modelled from the
specification as abstract context functions or as explicitly marked
definitions.
-/

namespace Rhai

/-- Token and node kinds of the syntax tree, in the exact declaration
order of the Rust `SyntaxKind` enum in `crates/rowan/src/syntax.rs`. -/
inductive SyntaxKind where
  | KW_THIS
  | KW_LET
  | KW_CONST
  | KW_GLOBAL
  | KW_IS_SHARED
  | KW_FOR
  | KW_DO
  | KW_UNTIL
  | KW_WHILE
  | KW_IN
  | KW_LOOP
  | KW_BREAK
  | KW_CONTINUE
  | KW_IF
  | KW_ELSE
  | KW_SWITCH
  | KW_FN
  | KW_PRIVATE
  | KW_RETURN
  | KW_THROW
  | KW_TRY
  | KW_CATCH
  | KW_IMPORT
  | KW_EXPORT
  | KW_AS
  | KW_FN_CAPITAL
  | KW_CALL
  | KW_CURRY
  | KW_TYPE_OF
  | KW_PRINT
  | KW_DEBUG
  | KW_EVAL
  | KW_VAR
  | KW_STATIC
  | KW_GOTO
  | KW_EXIT
  | KW_MATCH
  | KW_CASE
  | KW_PUBLIC
  | KW_PROTECTED
  | KW_NEW
  | KW_USE
  | KW_WITH
  | KW_MODULE
  | KW_PACKAGE
  | KW_SUPER
  | KW_SPAWN
  | KW_THREAD
  | KW_GO
  | KW_SYNC
  | KW_ASYNC
  | KW_AWAIT
  | KW_YIELD
  | KW_DEFAULT
  | KW_VOID
  | KW_NULL
  | KW_NIL
  | PUNCT_COMMA
  | PUNCT_SEMI
  | PUNCT_DOT
  | PUNCT_COLON
  | PUNCT_COLON2
  | PUNCT_UNDERSCORE
  | PUNCT_ARROW_FAT
  | PUNCT_PAREN_START
  | PUNCT_PAREN_END
  | PUNCT_BRACKET_START
  | PUNCT_BRACKET_END
  | PUNCT_MAP_START
  | PUNCT_BRACE_START
  | PUNCT_BRACE_END
  | OP_ADD
  | OP_SUB
  | OP_MUL
  | OP_DIV
  | OP_MOD
  | OP_POW
  | OP_SHIFT_RIGHT
  | OP_SHIFT_LEFT
  | OP_BIT_AND
  | OP_BIT_OR
  | OP_BIT_XOR
  | OP_ASSIGN
  | OP_ADD_ASSIGN
  | OP_SUB_ASSIGN
  | OP_MUL_ASSIGN
  | OP_DIV_ASSIGN
  | OP_MOD_ASSIGN
  | OP_POW_ASSIGN
  | OP_SHIFT_RIGHT_ASSIGN
  | OP_SHIFT_LEFT_ASSIGN
  | OP_AND_ASSIGN
  | OP_OR_ASSIGN
  | OP_XOR_ASSIGN
  | OP_EQ
  | OP_NOT_EQ
  | OP_GT
  | OP_GT_EQ
  | OP_LT
  | OP_LT_EQ
  | OP_BOOL_AND
  | OP_BOOL_OR
  | OP_NOT
  | LIT_INT
  | LIT_FLOAT
  | LIT_BOOL
  | LIT_STR
  | LIT_CHAR
  | SHEBANG
  | IDENT
  | COMMENT_LINE
  | COMMENT_LINE_DOC
  | COMMENT_BLOCK
  | COMMENT_BLOCK_DOC
  | WHITESPACE
  | ERROR
  | NAME
  | LIT
  | PATH
  | PATH_SEGMENT
  | FILE
  | STMT
  | ITEM
  | DOC
  | EXPR
  | EXPR_IDENT
  | EXPR_LIT
  | EXPR_LET
  | EXPR_CONST
  | EXPR_BLOCK
  | EXPR_UNI
  | EXPR_BIN
  | EXPR_PAREN
  | EXPR_ARRAY
  | EXPR_INDEX
  | EXPR_OBJECT
  | EXPR_CALL
  | EXPR_METHOD_CALL
  | EXPR_ACCESS
  | EXPR_CLOSURE
  | EXPR_IF
  | EXPR_LOOP
  | EXPR_FOR
  | EXPR_WHILE
  | EXPR_BREAK
  | EXPR_CONTINUE
  | EXPR_SWITCH
  | EXPR_RETURN
  | EXPR_FN
  | EXPR_PATH
  | EXPR_IMPORT
  | OBJECT_FIELD
  | ARG_LIST
  | PARAM_LIST
  | PARAM
  | SWITCH_ARM_LIST
  | SWITCH_ARM
  | __LAST
deriving DecidableEq, Fintype, Repr

namespace SyntaxKind

/-- The numeric discriminant of a `SyntaxKind` value: the Rust enum is
`repr(u16)` with default discriminants, so the discriminant is the
declaration index.  The derived Rust `PartialOrd`/`Ord` compare these. -/
def discriminant : SyntaxKind → Nat
  | .KW_THIS => 0
  | .KW_LET => 1
  | .KW_CONST => 2
  | .KW_GLOBAL => 3
  | .KW_IS_SHARED => 4
  | .KW_FOR => 5
  | .KW_DO => 6
  | .KW_UNTIL => 7
  | .KW_WHILE => 8
  | .KW_IN => 9
  | .KW_LOOP => 10
  | .KW_BREAK => 11
  | .KW_CONTINUE => 12
  | .KW_IF => 13
  | .KW_ELSE => 14
  | .KW_SWITCH => 15
  | .KW_FN => 16
  | .KW_PRIVATE => 17
  | .KW_RETURN => 18
  | .KW_THROW => 19
  | .KW_TRY => 20
  | .KW_CATCH => 21
  | .KW_IMPORT => 22
  | .KW_EXPORT => 23
  | .KW_AS => 24
  | .KW_FN_CAPITAL => 25
  | .KW_CALL => 26
  | .KW_CURRY => 27
  | .KW_TYPE_OF => 28
  | .KW_PRINT => 29
  | .KW_DEBUG => 30
  | .KW_EVAL => 31
  | .KW_VAR => 32
  | .KW_STATIC => 33
  | .KW_GOTO => 34
  | .KW_EXIT => 35
  | .KW_MATCH => 36
  | .KW_CASE => 37
  | .KW_PUBLIC => 38
  | .KW_PROTECTED => 39
  | .KW_NEW => 40
  | .KW_USE => 41
  | .KW_WITH => 42
  | .KW_MODULE => 43
  | .KW_PACKAGE => 44
  | .KW_SUPER => 45
  | .KW_SPAWN => 46
  | .KW_THREAD => 47
  | .KW_GO => 48
  | .KW_SYNC => 49
  | .KW_ASYNC => 50
  | .KW_AWAIT => 51
  | .KW_YIELD => 52
  | .KW_DEFAULT => 53
  | .KW_VOID => 54
  | .KW_NULL => 55
  | .KW_NIL => 56
  | .PUNCT_COMMA => 57
  | .PUNCT_SEMI => 58
  | .PUNCT_DOT => 59
  | .PUNCT_COLON => 60
  | .PUNCT_COLON2 => 61
  | .PUNCT_UNDERSCORE => 62
  | .PUNCT_ARROW_FAT => 63
  | .PUNCT_PAREN_START => 64
  | .PUNCT_PAREN_END => 65
  | .PUNCT_BRACKET_START => 66
  | .PUNCT_BRACKET_END => 67
  | .PUNCT_MAP_START => 68
  | .PUNCT_BRACE_START => 69
  | .PUNCT_BRACE_END => 70
  | .OP_ADD => 71
  | .OP_SUB => 72
  | .OP_MUL => 73
  | .OP_DIV => 74
  | .OP_MOD => 75
  | .OP_POW => 76
  | .OP_SHIFT_RIGHT => 77
  | .OP_SHIFT_LEFT => 78
  | .OP_BIT_AND => 79
  | .OP_BIT_OR => 80
  | .OP_BIT_XOR => 81
  | .OP_ASSIGN => 82
  | .OP_ADD_ASSIGN => 83
  | .OP_SUB_ASSIGN => 84
  | .OP_MUL_ASSIGN => 85
  | .OP_DIV_ASSIGN => 86
  | .OP_MOD_ASSIGN => 87
  | .OP_POW_ASSIGN => 88
  | .OP_SHIFT_RIGHT_ASSIGN => 89
  | .OP_SHIFT_LEFT_ASSIGN => 90
  | .OP_AND_ASSIGN => 91
  | .OP_OR_ASSIGN => 92
  | .OP_XOR_ASSIGN => 93
  | .OP_EQ => 94
  | .OP_NOT_EQ => 95
  | .OP_GT => 96
  | .OP_GT_EQ => 97
  | .OP_LT => 98
  | .OP_LT_EQ => 99
  | .OP_BOOL_AND => 100
  | .OP_BOOL_OR => 101
  | .OP_NOT => 102
  | .LIT_INT => 103
  | .LIT_FLOAT => 104
  | .LIT_BOOL => 105
  | .LIT_STR => 106
  | .LIT_CHAR => 107
  | .SHEBANG => 108
  | .IDENT => 109
  | .COMMENT_LINE => 110
  | .COMMENT_LINE_DOC => 111
  | .COMMENT_BLOCK => 112
  | .COMMENT_BLOCK_DOC => 113
  | .WHITESPACE => 114
  | .ERROR => 115
  | .NAME => 116
  | .LIT => 117
  | .PATH => 118
  | .PATH_SEGMENT => 119
  | .FILE => 120
  | .STMT => 121
  | .ITEM => 122
  | .DOC => 123
  | .EXPR => 124
  | .EXPR_IDENT => 125
  | .EXPR_LIT => 126
  | .EXPR_LET => 127
  | .EXPR_CONST => 128
  | .EXPR_BLOCK => 129
  | .EXPR_UNI => 130
  | .EXPR_BIN => 131
  | .EXPR_PAREN => 132
  | .EXPR_ARRAY => 133
  | .EXPR_INDEX => 134
  | .EXPR_OBJECT => 135
  | .EXPR_CALL => 136
  | .EXPR_METHOD_CALL => 137
  | .EXPR_ACCESS => 138
  | .EXPR_CLOSURE => 139
  | .EXPR_IF => 140
  | .EXPR_LOOP => 141
  | .EXPR_FOR => 142
  | .EXPR_WHILE => 143
  | .EXPR_BREAK => 144
  | .EXPR_CONTINUE => 145
  | .EXPR_SWITCH => 146
  | .EXPR_RETURN => 147
  | .EXPR_FN => 148
  | .EXPR_PATH => 149
  | .EXPR_IMPORT => 150
  | .OBJECT_FIELD => 151
  | .ARG_LIST => 152
  | .PARAM_LIST => 153
  | .PARAM => 154
  | .SWITCH_ARM_LIST => 155
  | .SWITCH_ARM => 156
  | .__LAST => 157

/-- `SyntaxKind::is_reserved_keyword`: discriminant-order comparison
`self >= &KW_VAR && self < &KW_NIL` from `crates/rowan/src/syntax.rs`. -/
def is_reserved_keyword (k : SyntaxKind) : Bool :=
  decide (discriminant KW_VAR ≤ discriminant k) &&
    decide (discriminant k < discriminant KW_NIL)

end SyntaxKind

/-! ## Lexer model

The lexer of `crates/rowan/src/syntax.rs` is generated by the external
`logos` engine from the `#[token]`/`#[regex]` attributes on `SyntaxKind`.
The rule set below is transcribed attribute by attribute from the source;
the matching engine itself (maximal munch over all rules, explicit
priorities breaking length ties, callbacks that extend or reject a match,
and a one-character `ERROR` token when nothing matches) is modelled from
the specification of the lexer (spec sections 4.1 and 7).  The model works
on `List Char`; the source iterates bytes, which coincides on the
characters any rule can inspect. -/

/-- Leading count of characters satisfying `p`. -/
def countLeading (p : Char → Bool) : List Char → Nat
  | [] => 0
  | c :: rest => if p c then countLeading p rest + 1 else 0

/-- `pat` is a prefix of `cs`. -/
def startsWith : List Char → List Char → Bool
  | [], _ => true
  | _ :: _, [] => false
  | a :: s, b :: t => a = b && startsWith s t

/-- Index of the first occurrence of `*/`, as in `remainder().find("*/")`. -/
def findStarSlash : List Char → Option Nat
  | [] => none
  | '*' :: '/' :: _ => some 0
  | _ :: rest => (findStarSlash rest).map (· + 1)

/-- The string-literal callback scan: index of the first unescaped
delimiter, tracking `escaped = (previous char = backslash)` exactly as the
source callback does. -/
def findStrEnd (delim : Char) : Bool → List Char → Option Nat
  | _, [] => none
  | escaped, c :: rest =>
    if !escaped && c = delim then some 0
    else (findStrEnd delim (c = '\\') rest).map (· + 1)

def isDigitChar (c : Char) : Bool := 48 ≤ c.toNat && c.toNat ≤ 57
def isDigitU (c : Char) : Bool := isDigitChar c || c = '_'
def isHexChar (c : Char) : Bool :=
  isDigitChar c || (65 ≤ c.toNat && c.toNat ≤ 70) || (97 ≤ c.toNat && c.toNat ≤ 102)
def isHexU (c : Char) : Bool := isHexChar c || c = '_'
def isOctU (c : Char) : Bool := (48 ≤ c.toNat && c.toNat ≤ 55) || c = '_'
def isBinU (c : Char) : Bool := c = '0' || c = '1' || c = '_'
def isAlphaChar (c : Char) : Bool :=
  (65 ≤ c.toNat && c.toNat ≤ 90) || (97 ≤ c.toNat && c.toNat ≤ 122)
def isIdentStartChar (c : Char) : Bool := isAlphaChar c || c = '_'
def isIdentContChar (c : Char) : Bool := isIdentStartChar c || isDigitChar c
def isSignChar (c : Char) : Bool := c = '+' || c = '-'
def nonNewline (c : Char) : Bool := !(c = '\n' || c = '\r')

/-- One lexing rule's matcher, one constructor per distinct
`#[token]`/`#[regex]` pattern shape of the source. -/
inductive Matcher where
  /-- `#[token("…")]` without callback. -/
  | exact (s : List Char)
  /-- `#[regex(r"[+-]?[0-9_]+")]`. -/
  | decInt
  /-- `#[regex(r"0x[0-9A-Fa-f_]+")]`. -/
  | hexInt
  /-- `#[regex(r"0o[0-7_]+")]`. -/
  | octInt
  /-- `#[regex(r"0b(0|1|_)+")]`. -/
  | binInt
  /-- `#[regex(r"[-+]?([0-9_]+(\.[0-9_]+)?([eE][+-]?[0-9_]+)?)")]`. -/
  | floatLit
  /-- `#[regex("true|false")]`. -/
  | boolLit
  /-- `#[token("\"")]` / `#[token("`")]` with the escape-aware
  terminator-searching callback. -/
  | strLit (delim : Char)
  /-- The five-alternative char-literal regex. -/
  | charLit
  /-- `#[regex(r"#![^\n\r]*")]`. -/
  | shebang
  /-- `#[regex("[A-Za-z_][0-9A-Za-z_]*")]`. -/
  | ident
  /-- `#[regex(r"//[^\n\r]*")]`. -/
  | commentLine
  /-- `#[regex(r"///[^\n\r]*")]`. -/
  | commentLineDoc
  /-- `#[token("/*")]` / `#[token("/**")]` with the `find("*/")` callback. -/
  | blockCmt (opener : List Char)
  /-- `#[regex(r"[ \t\n\f]+")]`. -/
  | whitespace
deriving DecidableEq, Repr

/-- Length matched by a rule's pattern at the start of `cs`, before any
callback runs (the maximal-munch phase of the engine).  `none` means the
pattern does not match at this position. -/
def patternLen (m : Matcher) (cs : List Char) : Option Nat :=
  match m with
  | .exact s => if s ≠ [] && startsWith s cs then some s.length else none
  | .decInt =>
    let sgn := if (cs.head?.map isSignChar).getD false then 1 else 0
    let d := countLeading isDigitU (cs.drop sgn)
    if d = 0 then none else some (sgn + d)
  | .hexInt =>
    if startsWith ['0', 'x'] cs then
      let d := countLeading isHexU (cs.drop 2)
      if d = 0 then none else some (2 + d)
    else none
  | .octInt =>
    if startsWith ['0', 'o'] cs then
      let d := countLeading isOctU (cs.drop 2)
      if d = 0 then none else some (2 + d)
    else none
  | .binInt =>
    if startsWith ['0', 'b'] cs then
      let d := countLeading isBinU (cs.drop 2)
      if d = 0 then none else some (2 + d)
    else none
  | .floatLit =>
    let sgn := if (cs.head?.map isSignChar).getD false then 1 else 0
    let d1 := countLeading isDigitU (cs.drop sgn)
    if d1 = 0 then none else
      let rest1 := cs.drop (sgn + d1)
      let frac :=
        match rest1 with
        | '.' :: r =>
          let d2 := countLeading isDigitU r
          if d2 = 0 then 0 else 1 + d2
        | _ => 0
      let rest2 := rest1.drop frac
      let expo :=
        match rest2 with
        | e :: r =>
          if e = 'e' || e = 'E' then
            let s2 := if (r.head?.map isSignChar).getD false then 1 else 0
            let d3 := countLeading isDigitU (r.drop s2)
            if d3 = 0 then 0 else 1 + s2 + d3
          else 0
        | [] => 0
      some (sgn + d1 + frac + expo)
  | .boolLit =>
    if startsWith "true".toList cs then some 4
    else if startsWith "false".toList cs then some 5
    else none
  | .strLit delim => if cs.head? = some delim then some 1 else none
  | .charLit =>
    let l12 :=
      match cs with
      | '\'' :: '\\' :: 'U' :: h1 :: h2 :: h3 :: h4 :: h5 :: h6 :: h7 :: h8 :: '\'' :: _ =>
        if isHexChar h1 && isHexChar h2 && isHexChar h3 && isHexChar h4 &&
            isHexChar h5 && isHexChar h6 && isHexChar h7 && isHexChar h8 then
          some 12 else none
      | _ => none
    let l8 :=
      match cs with
      | '\'' :: '\\' :: 'u' :: h1 :: h2 :: h3 :: h4 :: '\'' :: _ =>
        if isHexChar h1 && isHexChar h2 && isHexChar h3 && isHexChar h4 then
          some 8 else none
      | _ => none
    let l6 :=
      match cs with
      | '\'' :: '\\' :: 'x' :: h1 :: h2 :: '\'' :: _ =>
        if isHexChar h1 && isHexChar h2 then some 6 else none
      | _ => none
    let l4 :=
      match cs with
      | '\'' :: '\\' :: c :: '\'' :: _ => if c ≠ '\n' then some 4 else none
      | _ => none
    let l3 :=
      match cs with
      | '\'' :: c :: '\'' :: _ => if c ≠ '\n' then some 3 else none
      | _ => none
    l12 <|> l8 <|> l6 <|> l4 <|> l3
  | .shebang =>
    if startsWith ['#', '!'] cs then some (2 + countLeading nonNewline (cs.drop 2))
    else none
  | .ident =>
    match cs with
    | c :: rest =>
      if isIdentStartChar c then some (1 + countLeading isIdentContChar rest) else none
    | [] => none
  | .commentLine =>
    if startsWith ['/', '/'] cs then some (2 + countLeading nonNewline (cs.drop 2))
    else none
  | .commentLineDoc =>
    if startsWith ['/', '/', '/'] cs then some (3 + countLeading nonNewline (cs.drop 3))
    else none
  | .blockCmt opener =>
    if opener ≠ [] && startsWith opener cs then some opener.length else none
  | .whitespace =>
    let d := countLeading (fun c => c = ' ' || c = '\t' || c = '\n' || c = '\x0c') cs
    if d = 0 then none else some d

/-- Second phase of a match: run the rule's callback (if any) on the
remainder.  `some total` is the final token length; `none` means the
callback rejected the match, which the engine turns into an `ERROR` token
over the pattern's span. -/
def runCallback (m : Matcher) (patLen : Nat) (cs : List Char) : Option Nat :=
  match m with
  | .strLit delim =>
    (findStrEnd delim false (cs.drop 1)).map (fun i => 1 + i + 1)
  | .blockCmt opener =>
    (findStarSlash (cs.drop opener.length)).map (fun i => opener.length + i + 2)
  | _ => some patLen

/-- One lexer rule: token kind, matcher, and priority (`logos` uses twice
the token's length for `#[token]` rules, twice the shortest match for
default-priority regexes, and the explicitly annotated priority
otherwise — here `LIT_INT`'s decimal rule at 3 and `LIT_FLOAT` at 2). -/
structure LexRule where
  kind : SyntaxKind
  matcher : Matcher
  prio : Nat
deriving Repr

/-- A `#[token]` rule: priority is twice the literal's length. -/
def tokRule (k : SyntaxKind) (s : List Char) : LexRule :=
  ⟨k, .exact s, 2 * s.length⟩

/-- The full rule set, in the declaration order of the `SyntaxKind` enum. -/
def lexRules : List LexRule :=
  [ tokRule .KW_THIS "this".toList
  , tokRule .KW_LET "let".toList
  , tokRule .KW_CONST "const".toList
  , tokRule .KW_GLOBAL "global".toList
  , tokRule .KW_IS_SHARED "is_shared".toList
  , tokRule .KW_FOR "for".toList
  , tokRule .KW_DO "do".toList
  , tokRule .KW_UNTIL "until".toList
  , tokRule .KW_WHILE "while".toList
  , tokRule .KW_IN "in".toList
  , tokRule .KW_LOOP "loop".toList
  , tokRule .KW_BREAK "break".toList
  , tokRule .KW_CONTINUE "continue".toList
  , tokRule .KW_IF "if".toList
  , tokRule .KW_ELSE "else".toList
  , tokRule .KW_SWITCH "switch".toList
  , tokRule .KW_FN "fn".toList
  , tokRule .KW_PRIVATE "private".toList
  , tokRule .KW_RETURN "return".toList
  , tokRule .KW_THROW "throw".toList
  , tokRule .KW_TRY "try".toList
  , tokRule .KW_CATCH "catch".toList
  , tokRule .KW_IMPORT "import".toList
  , tokRule .KW_EXPORT "export".toList
  , tokRule .KW_AS "as".toList
  , tokRule .KW_FN_CAPITAL "Fn".toList
  , tokRule .KW_CALL "call".toList
  , tokRule .KW_CURRY "curry".toList
  , tokRule .KW_TYPE_OF "type_of".toList
  , tokRule .KW_PRINT "print".toList
  , tokRule .KW_DEBUG "debug".toList
  , tokRule .KW_EVAL "eval".toList
  , tokRule .KW_VAR "var".toList
  , tokRule .KW_STATIC "static".toList
  , tokRule .KW_GOTO "goto".toList
  , tokRule .KW_EXIT "exit".toList
  , tokRule .KW_MATCH "match".toList
  , tokRule .KW_CASE "case".toList
  , tokRule .KW_PUBLIC "public".toList
  , tokRule .KW_PROTECTED "protected".toList
  , tokRule .KW_NEW "new".toList
  , tokRule .KW_USE "use".toList
  , tokRule .KW_WITH "with".toList
  , tokRule .KW_MODULE "module".toList
  , tokRule .KW_PACKAGE "package".toList
  , tokRule .KW_SUPER "super".toList
  , tokRule .KW_SPAWN "spawn".toList
  , tokRule .KW_THREAD "thread".toList
  , tokRule .KW_GO "go".toList
  , tokRule .KW_SYNC "sync".toList
  , tokRule .KW_ASYNC "async".toList
  , tokRule .KW_AWAIT "await".toList
  , tokRule .KW_YIELD "yield".toList
  , tokRule .KW_DEFAULT "default".toList
  , tokRule .KW_VOID "void".toList
  , tokRule .KW_NULL "null".toList
  , tokRule .KW_NIL "nil".toList
  , tokRule .PUNCT_COMMA ",".toList
  , tokRule .PUNCT_SEMI ";".toList
  , tokRule .PUNCT_DOT ".".toList
  , tokRule .PUNCT_COLON ":".toList
  , tokRule .PUNCT_COLON2 "::".toList
  , tokRule .PUNCT_UNDERSCORE "_".toList
  , tokRule .PUNCT_ARROW_FAT "=>".toList
  , tokRule .PUNCT_PAREN_START "(".toList
  , tokRule .PUNCT_PAREN_END ")".toList
  , tokRule .PUNCT_BRACKET_START "[".toList
  , tokRule .PUNCT_BRACKET_END "]".toList
  , tokRule .PUNCT_MAP_START "#\x7b".toList
  , tokRule .PUNCT_BRACE_START "\x7b".toList
  , tokRule .PUNCT_BRACE_END "\x7d".toList
  , tokRule .OP_ADD "+".toList
  , tokRule .OP_SUB "-".toList
  , tokRule .OP_MUL "*".toList
  , tokRule .OP_DIV "/".toList
  , tokRule .OP_MOD "%".toList
  , tokRule .OP_POW "**".toList
  , tokRule .OP_SHIFT_RIGHT ">>".toList
  , tokRule .OP_SHIFT_LEFT "<<".toList
  , tokRule .OP_BIT_AND "&".toList
  , tokRule .OP_BIT_OR "|".toList
  , tokRule .OP_BIT_XOR "^".toList
  , tokRule .OP_ASSIGN "=".toList
  , tokRule .OP_ADD_ASSIGN "+=".toList
  , tokRule .OP_SUB_ASSIGN "-=".toList
  , tokRule .OP_MUL_ASSIGN "*=".toList
  , tokRule .OP_DIV_ASSIGN "/=".toList
  , tokRule .OP_MOD_ASSIGN "%=".toList
  , tokRule .OP_POW_ASSIGN "**=".toList
  , tokRule .OP_SHIFT_RIGHT_ASSIGN ">>=".toList
  , tokRule .OP_SHIFT_LEFT_ASSIGN "<<=".toList
  , tokRule .OP_AND_ASSIGN "&=".toList
  , tokRule .OP_OR_ASSIGN "|=".toList
  , tokRule .OP_XOR_ASSIGN "^=".toList
  , tokRule .OP_EQ "==".toList
  , tokRule .OP_NOT_EQ "!=".toList
  , tokRule .OP_GT ">".toList
  , tokRule .OP_GT_EQ ">=".toList
  , tokRule .OP_LT "<".toList
  , tokRule .OP_LT_EQ "<=".toList
  , tokRule .OP_BOOL_AND "&&".toList
  , tokRule .OP_BOOL_OR "||".toList
  , tokRule .OP_NOT "!".toList
  , ⟨.LIT_INT, .decInt, 3⟩
  , ⟨.LIT_INT, .hexInt, 6⟩
  , ⟨.LIT_INT, .octInt, 6⟩
  , ⟨.LIT_INT, .binInt, 6⟩
  , ⟨.LIT_FLOAT, .floatLit, 2⟩
  , ⟨.LIT_BOOL, .boolLit, 8⟩
  , ⟨.LIT_STR, .strLit '"', 2⟩
  , ⟨.LIT_STR, .strLit '`', 2⟩
  , ⟨.LIT_CHAR, .charLit, 6⟩
  , ⟨.SHEBANG, .shebang, 4⟩
  , ⟨.IDENT, .ident, 2⟩
  , ⟨.COMMENT_LINE, .commentLine, 4⟩
  , ⟨.COMMENT_LINE_DOC, .commentLineDoc, 6⟩
  , ⟨.COMMENT_BLOCK, .blockCmt "/*".toList, 4⟩
  , ⟨.COMMENT_BLOCK_DOC, .blockCmt "/**".toList, 6⟩
  , ⟨.WHITESPACE, .whitespace, 2⟩
  ]

/-- One step of the maximal-munch choice: a rule displaces the current
best candidate when its pattern matches longer, or as long with a higher
priority. -/
def pickStep (cs : List Char) (best : Option (SyntaxKind × Matcher × Nat × Nat))
    (r : LexRule) : Option (SyntaxKind × Matcher × Nat × Nat) :=
  match patternLen r.matcher cs with
  | none => best
  | some n =>
    match best with
    | none => some (r.kind, r.matcher, n, r.prio)
    | some (bk, bm, bn, bp) =>
      if n > bn || (n = bn && r.prio > bp) then some (r.kind, r.matcher, n, r.prio)
      else some (bk, bm, bn, bp)

/-- The maximal-munch choice over all rules: longest pattern wins, and a
length tie is broken by the higher priority (earlier rule on a full tie). -/
def pickBest (cs : List Char) : Option (SyntaxKind × Matcher × Nat × Nat) :=
  lexRules.foldl (pickStep cs) none

/-- The next token's kind and length at the head of `cs` (`cs` nonempty):
pick the winning pattern, run its callback, and fall back to a
one-character `ERROR` token when nothing matches (or to an `ERROR` token
over the pattern when the callback rejects it). -/
def nextToken (cs : List Char) : SyntaxKind × Nat :=
  match pickBest cs with
  | none => (.ERROR, 1)
  | some (k, m, n, _) =>
    match runCallback m n cs with
    | some total => (k, total)
    | none => (.ERROR, n)

/-- The token stream: repeatedly take the next token.  `fuel` bounds the
recursion; `cs.length` steps always suffice because every token consumes
at least one character (`nextToken_len_pos`). -/
def lexGo : Nat → List Char → List (SyntaxKind × List Char)
  | 0, _ => []
  | _ + 1, [] => []
  | fuel + 1, c :: rest =>
    let t := nextToken (c :: rest)
    (t.1, (c :: rest).take t.2) :: lexGo fuel ((c :: rest).drop t.2)

/-- Lexing an input: the finite stream of `(kind, slice)` pairs. -/
def tokenize (cs : List Char) : List (SyntaxKind × List Char) :=
  lexGo cs.length cs

/-- Concatenation of the slices of a token stream. -/
def joinSlices (ts : List (SyntaxKind × List Char)) : List Char :=
  ts.foldr (fun t acc => t.2 ++ acc) []

/-! ## HIR data model

`crates/rhai-hir/src/scope.rs` is among the sources; the symbol data
declarations (`symbol.rs`) are not, so `DeclSymbol`, `FnSymbol`,
`OpSymbol`, `ImportSymbol` and `SymbolKind` are modelled from spec
section 3.2 together with how `crates/hir/src/hir/add/def.rs` and
`crates/rhai-lsp/src/world.rs` use them.  Arena handles are `Nat`;
slotmaps become keyed entry lists. -/

/-- `SourceInfo` as used by the lowering code. -/
structure SourceInfo where
  source : Option Nat := none
  text_range : Option (Nat × Nat) := none
  selection_text_range : Option (Nat × Nat) := none
deriving DecidableEq, Repr

/-- `ScopeParent` from `crates/rhai-hir/src/scope.rs`. -/
inductive ScopeParent where
  | scope (s : Nat)
  | symbol (s : Nat)
deriving DecidableEq, Repr

/-- `ScopeData` from `crates/rhai-hir/src/scope.rs`: an ordered symbol
set plus a hoisted set. -/
structure ScopeData where
  source : SourceInfo := {}
  parent : Option ScopeParent := none
  symbols : List Nat := []
  hoisted_symbols : List Nat := []
deriving DecidableEq, Repr

/-- Modelled from the spec: `DeclSymbol` (spec 3.2); defaults follow
Rust's derived `Default` (empty / false / none).  The `ty` handle's null
key is modelled as `0`. -/
structure DeclSymbol where
  name : String := ""
  is_const : Bool := false
  is_param : Bool := false
  is_import : Bool := false
  value : Option Nat := none
  value_scope : Option Nat := none
  docs : String := ""
  ty : Nat := 0
deriving DecidableEq, Repr

/-- Modelled from the spec: `FnSymbol` (spec 3.2). -/
structure FnSymbol where
  name : String := ""
  docs : String := ""
  scope : Nat := 0
  getter : Bool := false
  setter : Bool := false
  ty : Nat := 0
deriving DecidableEq, Repr

/-- Modelled from the spec: `OpSymbol` (spec 3.2), with the field split
observed in `Workspace::check_operators` (`lhs_ty` a plain type handle,
`rhs_ty` optional); defaults follow Rust's derived `Default`. -/
structure OpSymbol where
  name : String := ""
  lhs_ty : Nat := 0
  rhs_ty : Option Nat := none
  binding_powers : Nat × Nat := (0, 0)
  docs : String := ""
deriving DecidableEq, Repr

/-- Modelled from the spec: `ImportSymbol` (spec 3.2). -/
structure ImportSymbol where
  target : Option Nat := none
  scope : Nat := 0
  «alias» : Option Nat := none
  expr : Option Nat := none
deriving DecidableEq, Repr

/-- Modelled from the spec: the virtual symbol kinds; the spec names
`Proxy{target}` and elides the rest. -/
inductive VirtualSymbol where
  | proxy (target : Nat)
  | other (tag : Nat)
deriving DecidableEq, Repr

/-- Modelled from the spec: `SymbolKind` (spec 3.2); control-flow kinds
are collapsed into one tagged constructor, which no claim inspects. -/
inductive SymbolKind where
  | decl (d : DeclSymbol)
  | fn (f : FnSymbol)
  | op (o : OpSymbol)
  | imp (i : ImportSymbol)
  | reference (name : String) (target : Option Nat) (field_access : Bool)
  | lit
  | path (segments : List Nat)
  | block (scope : Nat)
  | virt (v : VirtualSymbol)
  | control (tag : Nat)
deriving DecidableEq, Repr

/-- `SymbolData` (spec 3.2): the null `parent_scope` handle used during
construction is modelled as `none`. -/
structure SymbolData where
  «export» : Bool := false
  parent_scope : Option Nat := none
  source : SourceInfo := {}
  kind : SymbolKind
deriving DecidableEq, Repr

/-- `ModuleKind` (spec 3.2 / `crates/hir/src/hir/add/def.rs`). -/
inductive ModuleKind where
  | static
  | url (u : String)
deriving DecidableEq, Repr

/-- `ModuleData` (spec 3.2): kind, docs, root scope. -/
structure ModuleData where
  kind : ModuleKind
  docs : String := ""
  scope : Nat := 0
deriving DecidableEq, Repr

/-- Source kind (spec 3.2). -/
inductive SourceKind where
  | script
  | definition
deriving DecidableEq, Repr

/-- `SourceData` (spec 3.2, syntax info elided: no claim reads it). -/
structure SourceData where
  url : String
  kind : SourceKind := .script
  module : Nat := 0
deriving DecidableEq, Repr

/-- Modelled from the spec: a type entry (primitives plus user types). -/
inductive TypeData where
  | primitive (name : String)
  | user (name : String)
deriving DecidableEq, Repr

/-- `BuiltinTypes` from `crates/rhai-hir/src/hir.rs`: handles of the
always-present primitive types. -/
structure BuiltinTypes where
  module : Nat := 0
  int : Nat := 0
  float : Nat := 0
  bool : Nat := 0
  char : Nat := 0
  string : Nat := 0
  timestamp : Nat := 0
  void : Nat := 0
  unknown : Nat := 0
  never : Nat := 0
deriving DecidableEq, Repr

/-- The `Hir` container of `crates/rhai-hir/src/hir.rs`: typed arenas
keyed by handles, plus the distinguished static module and virtual
source. -/
structure Hir where
  static_module : Nat := 0
  virtual_source : Nat := 0
  modules : List (Nat × ModuleData) := []
  scopes : List (Nat × ScopeData) := []
  symbols : List (Nat × SymbolData) := []
  sources : List (Nat × SourceData) := []
  types : List (Nat × TypeData) := []
  builtin_types : BuiltinTypes := {}
deriving Repr

/-- Slotmap `get`: the data stored under a key, if the key is live. -/
def arenaGet (l : List (Nat × α)) (k : Nat) : Option α :=
  (l.find? (fun p => p.1 == k)).map (·.2)

/-- `Hir::symbol`: total lookup. -/
def Hir.symbol (h : Hir) (s : Nat) : Option SymbolData := arenaGet h.symbols s

/-- `Hir::scope`: total lookup. -/
def Hir.scope (h : Hir) (s : Nat) : Option ScopeData := arenaGet h.scopes s

/-- `Hir::module`: total lookup. -/
def Hir.module (h : Hir) (m : Nat) : Option ModuleData := arenaGet h.modules m

/-- `Hir::source_of`: the first source whose stored URL equals the given
URL exactly. -/
def Hir.source_of (h : Hir) (url : String) : Option Nat :=
  (h.sources.find? (fun p => p.2.url == url)).map (·.1)

/-- `impl ops::Index<Scope> for Hir`; the `unwrap` panic on a dead handle
is modelled as `none`. -/
def Hir.indexScope (h : Hir) (s : Nat) : Option ScopeData := arenaGet h.scopes s

/-- `impl ops::Index<Symbol> for Hir`: a `Virtual(Proxy)` symbol is
dereferenced one level to its target; the `unwrap` panics are `none`. -/
def Hir.indexSymbol (h : Hir) (s : Nat) : Option SymbolData :=
  match arenaGet h.symbols s with
  | none => none
  | some sym =>
    match sym.kind with
    | .virt (.proxy target) => arenaGet h.symbols target
    | _ => some sym

/-- `impl ops::Index<Module> for Hir`. -/
def Hir.indexModule (h : Hir) (m : Nat) : Option ModuleData := arenaGet h.modules m

/-- `impl ops::Index<Source> for Hir`. -/
def Hir.indexSource (h : Hir) (s : Nat) : Option SourceData := arenaGet h.sources s

/-! ## Definition-file lowering (`crates/hir/src/hir/add/def.rs`) -/

/-- A fresh arena key: one past the largest live key. -/
def freshKey (l : List (Nat × α)) : Nat := (l.map (·.1)).foldr max 0 + 1

/-- Insert a symbol into the arena (`Hir::add_symbol` / direct
`symbols.insert`), returning the updated HIR and the new handle. -/
def addSymbolK (h : Hir) (d : SymbolData) : Hir × Nat :=
  let k := freshKey h.symbols
  ({ h with symbols := h.symbols ++ [(k, d)] }, k)

/-- Insert a scope into the arena (`scopes.insert`). -/
def addScopeK (h : Hir) (d : ScopeData) : Hir × Nat :=
  let k := freshKey h.scopes
  ({ h with scopes := h.scopes ++ [(k, d)] }, k)

/-- Insert a module into the arena. -/
def addModuleK (h : Hir) (d : ModuleData) : Hir × Nat :=
  let k := freshKey h.modules
  ({ h with modules := h.modules ++ [(k, d)] }, k)

/-- Append externally produced symbol data (expression lowering output)
to the symbol arena. -/
def appendSymbols (h : Hir) (l : List SymbolData) : Hir :=
  l.foldl (fun h d => (addSymbolK h d).1) h

/-- Modelled from the spec: `Scope::add_symbol(hir, symbol, hoist)` —
registers the symbol in the scope (hoisted or ordered per the flag) and
sets the symbol's `parent_scope` (spec 3.2/3.3). -/
def scopeAddSymbol (h : Hir) (scope : Nat) (sym : Nat) (hoist : Bool) : Hir :=
  { h with
    scopes := h.scopes.map (fun p =>
      if p.1 == scope then
        (p.1,
          if hoist then { p.2 with hoisted_symbols := p.2.hoisted_symbols ++ [sym] }
          else { p.2 with symbols := p.2.symbols ++ [sym] })
      else p),
    symbols := h.symbols.map (fun p =>
      if p.1 == sym then (p.1, { p.2 with parent_scope := some scope }) else p) }

/-- Modelled from the spec: `Scope::set_parent(hir, symbol)` — the scope
belongs to the symbol (spec 4.3, scoping). -/
def scopeSetParent (h : Hir) (scope : Nat) (sym : Nat) : Hir :=
  { h with scopes := h.scopes.map (fun p =>
      if p.1 == scope then (p.1, { p.2 with parent := some (.symbol sym) }) else p) }

/-- Modelled from the spec: `Hir::ensure_module` — modules are
deduplicated by kind; a missing module is created with a fresh root
scope (spec 3.2). -/
def ensure_module (h : Hir) (k : ModuleKind) : Hir × Nat :=
  match h.modules.find? (fun p => p.2.kind == k) with
  | some p => (h, p.1)
  | none =>
    let (h, sc) := addScopeK h {}
    addModuleK h { kind := k, scope := sc }

/-- `Hir::module_mut(module).docs = docs`. -/
def setModuleDocs (h : Hir) (m : Nat) (docs : String) : Hir :=
  { h with modules := h.modules.map (fun p =>
      if p.1 == m then (p.1, { p.2 with docs := docs }) else p) }

/-- `Hir::source_mut(source).module = module`. -/
def setSourceModule (h : Hir) (src m : Nat) : Hir :=
  { h with sources := h.sources.map (fun p =>
      if p.1 == src then (p.1, { p.2 with module := m }) else p) }

/-- Modelled from the spec: `Hir::add_module_to_static_scope` registers a
`static://` module in the static module's root scope (spec 8.6); its
precise effect is not relied upon by any claim, and is modelled as
recording the module handle among the static root scope's hoisted
entries. -/
def add_module_to_static_scope (h : Hir) (m : Nat) : Hir :=
  match arenaGet h.modules h.static_module with
  | none => h
  | some md =>
    { h with scopes := h.scopes.map (fun p =>
        if p.1 == md.scope then
          (p.1, { p.2 with hoisted_symbols := p.2.hoisted_symbols ++ [m] })
        else p) }

/-- A CST token view: kind, verbatim text, text range. -/
structure TokenM where
  kind : SyntaxKind
  text : String
  text_range : Nat × Nat := (0, 0)
deriving DecidableEq, Repr

/-- A CST child element: node or token (`SyntaxElement`). -/
inductive ElemM where
  | token (t : TokenM)
  | node
deriving DecidableEq, Repr

/-- `SyntaxElement::into_token`. -/
def ElemM.into_token : ElemM → Option TokenM
  | .token t => some t
  | .node => none

/-- The `ImportDef` AST view (accessors used by the lowering); the
imported expression is an opaque payload handed to expression lowering. -/
structure ImportDefM where
  text_range : Nat × Nat := (0, 0)
  «alias» : Option TokenM := none
  expr : Option Nat := none
deriving DecidableEq, Repr

/-- The `ConstDef` AST view. -/
structure ConstDefM where
  text_range : Nat × Nat := (0, 0)
  ident_token : Option TokenM := none
deriving DecidableEq, Repr

/-- A typed parameter of a `fn` definition. -/
structure ParamM where
  text_range : Nat × Nat := (0, 0)
  ident_token : Option TokenM := none
deriving DecidableEq, Repr

/-- The `FnDef` AST view. -/
structure FnDefM where
  text_range : Nat × Nat := (0, 0)
  ident_token : Option TokenM := none
  typed_param_list : Option (List ParamM) := none
  has_kw_get : Bool := false
  has_kw_set : Bool := false
deriving DecidableEq, Repr

/-- The `OpDef` AST view: its raw child elements (the lowering scans the
tokens), plus — modelled from the spec — the binding powers that the
definition's syntax declares (e.g. `op ~~ = (10,11)` in spec S4), which
the claims compare the produced symbol against. -/
structure OpDefM where
  text_range : Nat × Nat := (0, 0)
  elements : List ElemM := []
  declared_binding_powers : Option (Nat × Nat) := none
deriving DecidableEq, Repr

/-- The `Def` item alternatives. -/
inductive DefM where
  | importDef (d : ImportDefM)
  | constDef (d : ConstDefM)
  | fnDef (d : FnDefM)
  | opDef (d : OpDefM)
  | typeDef
deriving DecidableEq, Repr

/-- The `Item` AST view: docs plus the definition (`item.def()`). -/
structure ItemM where
  docs_content : String := ""
  defItem : Option DefM := none
deriving DecidableEq, Repr

/-- The `DefStmt` AST view. -/
structure DefStmtM where
  item : Option ItemM := none
deriving DecidableEq, Repr

/-- The `DefModule` AST view: `static` keyword, string-literal name, or
identifier name (each optional). -/
structure DefModuleM where
  kw_static_token : Bool := false
  lit_str_token : Option TokenM := none
  ident_token : Option TokenM := none
deriving DecidableEq, Repr

/-- The `DefModuleDecl` AST view. -/
structure DefModuleDeclM where
  docs_content : String := ""
  def_module : Option DefModuleM := none
deriving DecidableEq, Repr

/-- The `RhaiDef` AST view: optional module declaration plus statements. -/
structure RhaiDefM where
  def_module_decl : Option DefModuleDeclM := none
  statements : List DefStmtM := []
deriving DecidableEq, Repr

/-- Abstract collaborators of the definition lowering that are not among
the sources: URL resolution, unescaping, script-URL derivation, the
parser's infix binding-power table, and expression lowering (which
returns the symbol data it appends plus its result handle). -/
structure DefCtx where
  resolve_import_url : Option String → String → Option String
  unescape : String → String
  script_url : String → Option String
  infix_binding_power : SyntaxKind → Option (Nat × Nat)
  addExpression : Nat → Nat → Bool → Nat → List SymbolData × Option Nat

/-- `lit_str.strip_prefix('"').unwrap_or(..)` then the same for the
suffix, as in `Hir::add_def`. -/
def stripQuotes (s : String) : String :=
  let l := s.toList
  let l := match l with
    | '"' :: r => r
    | _ => l
  let l := if l.getLast? = some '"' then l.dropLast else l
  ⟨l⟩

/-- The `static:` URL scheme constant. -/
def STATIC_URL_SCHEME : String := "static"

/-- `url.scheme() == STATIC_URL_SCHEME` for the model's string URLs. -/
def hasStaticScheme (u : String) : Bool :=
  startsWith (STATIC_URL_SCHEME ++ "://").toList u.toList

/-- The module-kind resolution of `Hir::add_def`, factored out verbatim:
`static` keyword, then string-literal name (resolved against the source
URL after quote-stripping and unescaping; `none` on resolution failure),
then identifier name, then the derived script URL with fallback to the
source URL itself. -/
def moduleKindOf (ctx : DefCtx) (sourceUrl : String) (dm : DefModuleM) :
    Option ModuleKind :=
  if dm.kw_static_token then some .static
  else
    match dm.lit_str_token with
    | some name =>
      let lit_str := stripQuotes name.text
      (ctx.resolve_import_url (some sourceUrl) (ctx.unescape lit_str)).map .url
    | none =>
      match dm.ident_token with
      | some name => some (.url (STATIC_URL_SCHEME ++ "://" ++ name.text))
      | none => some (.url ((ctx.script_url sourceUrl).getD sourceUrl))

/-- `Hir::add_def_statement`: lower one definition statement into the
HIR, creating the statement's symbols and scopes. -/
def add_def_statement (ctx : DefCtx) (source scope : Nat) (stmt : DefStmtM)
    (h : Hir) : Hir :=
  match stmt.item.bind (·.defItem) with
  | none => h
  | some d =>
    let docs := (stmt.item.map (·.docs_content)).getD ""
    match d with
    | .importDef import_def =>
      let (h, import_scope) := addScopeK h
        { source := { source := some source, text_range := some import_def.text_range } }
      let (h, aliasSym) :=
        match import_def.«alias» with
        | none => (h, none)
        | some al =>
          let (h, a) := addSymbolK h
            { «export» := true,
              source := { source := some source, text_range := some al.text_range },
              kind := .decl { name := al.text, is_import := true },
              parent_scope := none }
          (scopeAddSymbol h import_scope a true, some a)
      let (h, exprSym) :=
        match import_def.expr with
        | none => (h, none)
        | some e =>
          let r := ctx.addExpression source import_scope false e
          (appendSymbols h r.1, r.2)
      let (h, symbol) := addSymbolK h
        { «export» := true, parent_scope := none,
          source := { source := some source, text_range := some import_def.text_range },
          kind := .imp { target := none, scope := import_scope, «alias» := aliasSym,
                         expr := exprSym } }
      let h := scopeAddSymbol h scope symbol true
      scopeSetParent h import_scope symbol
    | .constDef const_def =>
      match const_def.ident_token with
      | none => h
      | some ident_token =>
        let (h, symbol) := addSymbolK h
          { «export» := true,
            source := { source := some source, text_range := some const_def.text_range,
                        selection_text_range := some ident_token.text_range },
            parent_scope := none,
            kind := .decl { name := ident_token.text, is_const := true, value := none,
                            value_scope := none, docs := docs } }
        scopeAddSymbol h scope symbol true
    | .fnDef expr =>
      let (h, fn_scope) := addScopeK h
        { source := { source := some source, text_range := some expr.text_range } }
      let h :=
        match expr.typed_param_list with
        | none => h
        | some params =>
          params.foldl (fun h param =>
            let (h, symbol) := addSymbolK h
              { «export» := false, parent_scope := none,
                source := { source := some source, text_range := some param.text_range,
                            selection_text_range := param.ident_token.map (·.text_range) },
                kind := .decl { name := (param.ident_token.map (·.text)).getD "",
                                is_param := true } }
            scopeAddSymbol h fn_scope symbol false) h
      let (h, symbol) := addSymbolK h
        { «export» := true, parent_scope := none,
          source := { source := some source, text_range := some expr.text_range,
                      selection_text_range := expr.ident_token.map (·.text_range) },
          kind := .fn { name := (expr.ident_token.map (·.text)).getD "", docs := docs,
                        scope := fn_scope, getter := expr.has_kw_get,
                        setter := expr.has_kw_set } }
      let h := scopeAddSymbol h scope symbol true
      scopeSetParent h fn_scope symbol
    | .opDef f =>
      let name_token := ((f.elements.filterMap ElemM.into_token).drop 1).find?
        (fun t => t.kind == SyntaxKind.IDENT || (ctx.infix_binding_power t.kind).isSome)
      match name_token with
      | none => h
      | some ident =>
        let (h, symbol) := addSymbolK h
          { «export» := true,
            source := { source := some source, text_range := some f.text_range,
                        selection_text_range := some ident.text_range },
            parent_scope := none,
            kind := .op { name := ident.text, docs := docs } }
        scopeAddSymbol h scope symbol true
    | .typeDef => h

/-- `Hir::add_def`: resolve the module declaration's kind, ensure the
module, attach docs and the source, register `static://` modules in the
static scope, then lower the statements.  `none` models the panic on a
dead source handle; a missing declaration or an unresolvable
string-literal URL leaves the HIR unchanged. -/
def add_def (ctx : DefCtx) (source : Nat) (d : RhaiDefM) (h : Hir) : Option Hir :=
  match d.def_module_decl with
  | none => some h
  | some decl =>
    let docs := decl.docs_content
    match decl.def_module with
    | none => some h
    | some def_mod =>
      match arenaGet h.sources source with
      | none => none
      | some srcData =>
        match moduleKindOf ctx srcData.url def_mod with
        | none => some h
        | some module_kind =>
          let hm := ensure_module h module_kind
          let h := setModuleDocs hm.1 hm.2 docs
          let h := setSourceModule h source hm.2
          let h :=
            match arenaGet h.modules hm.2 with
            | some md =>
              match md.kind with
              | .url url => if hasStaticScheme url then add_module_to_static_scope h hm.2 else h
              | .static => h
            | none => h
          let rootScope := ((arenaGet h.modules hm.2).map (·.scope)).getD 0
          some (d.statements.foldl (fun h stmt => add_def_statement ctx source rootScope stmt h) h)

/-! ## Workspace driver (`crates/rhai-lsp/src/world.rs`)

The driver is generic over its collaborators: the parser (external to the
driver, parameterized by the custom-operator table), URL normalization,
the `is_rhai_def` heuristic, and the HIR ingestion interface.  The
operator table handed to the parser is a `Finset` because the cache is a
Rust `HashSet` whose iteration order is unspecified.  `hir.operators()`
is repository code outside the sources and is modelled from the spec as
an enumeration of all `Op` symbols yielding
`{name, lhs_ty, rhs_ty, binding_powers}` records (spec 4.4). -/

/-- A cached custom-operator entry:
`(name, lhs type, rhs type, binding powers)`, as in the
`custom_operators: HashSet<(String, Type, Type, (u8, u8))>` field. -/
abbrev OpTuple := String × Nat × Nat × (Nat × Nat)

/-- One record yielded by `hir.operators()`. -/
structure OpData where
  name : String
  lhs_ty : Nat
  rhs_ty : Option Nat
  binding_powers : Nat × Nat
deriving DecidableEq, Repr

/-- The workspace driver's collaborators, abstracted: `P` is the parse
type, `Y` the syntax-tree type, `H` the HIR type, `S` the source-handle
type. -/
structure WsCtx (P Y H S : Type) where
  isRhaiDef : String → Bool
  isValidIdent : String → Bool
  normalize : String → String
  parseScript : Finset (String × (Nat × Nat)) → String → P
  parseDef : Finset (String × (Nat × Nat)) → String → P
  parseText : P → String
  cloneSyntax : P → Y
  hirOperators : H → List OpData
  hirSourceByUrl : H → String → Option S
  hirRemoveSource : H → S → H
  hirAddSource : H → String → Y → H

/-- A workspace `Document`: the parse and the definition flag (the
line-index mapper is outside the core). -/
structure DocumentW (P : Type) where
  parse : P
  is_def : Bool
deriving Repr

/-- The `Workspace` state the claims concern: the ordered document map,
the HIR, and the cached custom operators. -/
structure WorkspaceW (P H : Type) where
  documents : List (String × DocumentW P)
  hir : H
  custom_operators : Finset OpTuple

/-- `IndexMap::insert`: replace in place when the key is present,
append otherwise. -/
def insertDoc (docs : List (String × DocumentW P)) (url : String)
    (d : DocumentW P) : List (String × DocumentW P) :=
  if docs.any (fun p => p.1 == url) then
    docs.map (fun p => if p.1 == url then (url, d) else p)
  else docs ++ [(url, d)]

/-- `IndexMap` lookup by key. -/
def lookupDoc (docs : List (String × DocumentW P)) (url : String) :
    Option (DocumentW P) :=
  (docs.find? (fun p => p.1 == url)).map (·.2)

variable {P Y H S : Type}

/-- The operator table handed to the parser: cached operators whose name
is a valid identifier, as `(name, binding_power)` pairs. -/
def validOps (ctx : WsCtx P Y H S) (ops : Finset OpTuple) :
    Finset (String × (Nat × Nat)) :=
  (ops.filter (fun t => ctx.isValidIdent t.1 = true)).image (fun t => (t.1, t.2.2.2))

/-- The operator set computed by `Workspace::check_operators`: enumerate
`hir.operators()` and keep `(name, lhs_ty, rhs_ty, binding_powers)` for
each operator whose `rhs_ty` is present (the `let rhs_ty = op.rhs_ty?`
line drops the others). -/
def newOperators (ctx : WsCtx P Y H S) (hir : H) : Finset OpTuple :=
  ((ctx.hirOperators hir).filterMap (fun op =>
    op.rhs_ty.map (fun r => (op.name, op.lhs_ty, r, op.binding_powers)))).toFinset

/-- The non-recursive part of `Workspace::add_document`: pick the parser
entry point from `is_rhai_def`, parse with the current operator table,
add the source to the HIR under the normalized URL, and store the
document. -/
def add_document_raw (ctx : WsCtx P Y H S) (ws : WorkspaceW P H) (url text : String) :
    WorkspaceW P H :=
  let is_def := ctx.isRhaiDef text
  let parse :=
    if is_def then ctx.parseDef (validOps ctx ws.custom_operators) text
    else ctx.parseScript (validOps ctx ws.custom_operators) text
  { ws with
    hir := ctx.hirAddSource ws.hir (ctx.normalize url) (ctx.cloneSyntax parse),
    documents := insertDoc ws.documents url ⟨parse, is_def⟩ }

/-- Remove a document's source from the HIR by URL, when present. -/
def removeByUrl (ctx : WsCtx P Y H S) (hir : H) (url : String) : H :=
  match ctx.hirSourceByUrl hir (ctx.normalize url) with
  | some src => ctx.hirRemoveSource hir src
  | none => hir

/-- `Workspace::check_operators`: recompute the operator set; when it
differs from the cache, replace the cache, retain only definition
documents (removing each script's source from the HIR and collecting its
text), and re-add every collected script so it is reparsed with the new
operator table.  `fuel` bounds the `check_operators`/`add_document`
recursion; one unit is consumed per nested `add_document` wave. -/
def check_operators (ctx : WsCtx P Y H S) : Nat → WorkspaceW P H → WorkspaceW P H
  | 0, ws => ws
  | fuel + 1, ws =>
    let new_operators := newOperators ctx ws.hir
    if new_operators = ws.custom_operators then ws
    else
      let ws1 : WorkspaceW P H := { ws with custom_operators := new_operators }
      let scripts := ws1.documents.filter (fun p => !p.2.is_def)
      let docs_to_reparse := scripts.map (fun p => (p.1, ctx.parseText p.2.parse))
      let ws2 : WorkspaceW P H :=
        { ws1 with
          documents := ws1.documents.filter (fun p => p.2.is_def),
          hir := scripts.foldl (fun hir p => removeByUrl ctx hir p.1) ws1.hir }
      docs_to_reparse.foldl (fun w ut =>
        let w' := add_document_raw ctx w ut.1 ut.2
        if ctx.isRhaiDef ut.2 then check_operators ctx fuel w' else w') ws2

/-- `Workspace::add_document`: ingest the document, then run
`check_operators` when it is a definition file. -/
def add_document (ctx : WsCtx P Y H S) (fuel : Nat) (ws : WorkspaceW P H)
    (url text : String) : WorkspaceW P H :=
  let ws' := add_document_raw ctx ws url text
  if ctx.isRhaiDef text then check_operators ctx fuel ws' else ws'

/-! ## Concrete instances used by witnesses and counterexamples -/

/-- A concrete lowering context: no URL resolves when the unescaped
string is `"fail"`, no script URL derivation, no infix binding powers,
and expression lowering that produces nothing. -/
def ctxD : DefCtx :=
  { resolve_import_url := fun _ s => if s = "fail" then none else some s,
    unescape := fun s => s,
    script_url := fun _ => none,
    infix_binding_power := fun _ => none,
    addExpression := fun _ _ _ _ => ([], none) }

/-- An almost-empty HIR with one root scope under key 1. -/
def h0 : Hir := { scopes := [(1, {})] }

/-- A `fn greet(name)` definition statement. -/
def stmtFn : DefStmtM :=
  { item := some
      { docs_content := "",
        defItem := some (.fnDef
          { ident_token := some { kind := .IDENT, text := "greet" },
            typed_param_list := some [{ ident_token := some { kind := .IDENT, text := "name" } }] }) } }

/-- An `op foo = (10,11)` definition: the token stream starts with the
`op` keyword (an `IDENT` token) followed by the name `foo`, and the
definition declares binding powers `(10, 11)`. -/
def fOp : OpDefM :=
  { elements :=
      [ .token { kind := .IDENT, text := "op" },
        .token { kind := .WHITESPACE, text := " " },
        .token { kind := .IDENT, text := "foo" } ],
    declared_binding_powers := some (10, 11) }

/-- The statement wrapping `fOp`. -/
def stmtOp : DefStmtM :=
  { item := some { docs_content := "", defItem := some (.opDef fOp) } }

/-- The export-flag discipline of definition lowering: exported, or a
non-exported function-parameter declaration. -/
def ExportOk (d : SymbolData) : Prop :=
  d.«export» = true ∨
    ∃ ds, d.kind = SymbolKind.decl ds ∧ ds.is_param = true ∧ d.«export» = false

/-- Two symbol data agree on the export flag and the kind. -/
def sameEK (a b : SymbolData) : Prop := a.«export» = b.«export» ∧ a.kind = b.kind

/-- Every symbol of `cur` either descends (export flag and kind intact)
from a symbol of `base`, or obeys the export-flag discipline. -/
def SymsFrom (base cur : List (Nat × SymbolData)) : Prop :=
  ∀ p ∈ cur, (∃ q ∈ base, sameEK p.2 q.2) ∨ ExportOk p.2

/-- The parameter symbol produced by lowering `stmtFn` into `h0`. -/
def paramEntry : SymbolData :=
  { «export» := false, parent_scope := some 2,
    source := { source := some 0, text_range := some (0, 0),
                selection_text_range := some (0, 0) },
    kind := .decl { name := "name", is_param := true } }

/-- The symbol data produced by lowering `fOp` into `h0`. -/
def opEntry : SymbolData :=
  { «export» := true, parent_scope := some 1,
    source := { source := some 0, text_range := some (0, 0),
                selection_text_range := some (0, 0) },
    kind := .op { name := "foo" } }

/-- A target symbol for the proxy-indexing witness. -/
def symTarget : SymbolData := { «export» := true, kind := .lit }

/-- A proxy symbol targeting handle 2. -/
def symProxy : SymbolData := { kind := .virt (.proxy 2) }

/-- A small sample HIR: a proxy at 1 pointing at 2, plus one scope,
module, and source. -/
def hirSample : Hir :=
  { symbols := [(1, symProxy), (2, symTarget)],
    scopes := [(3, {})],
    modules := [(4, { kind := .static })],
    sources := [(5, { url := "file:///a.rhai" })] }

/-- A definition file declaring `module static`. -/
def defStatic : RhaiDefM :=
  { def_module_decl := some { docs_content := "", def_module := some { kw_static_token := true } } }

/-- An HIR holding one definition source under key 7. -/
def hirSrc : Hir :=
  { sources := [(7, { url := "file:///a/b.rhai", kind := .definition })] }

/-- A trivial workspace context over concrete types: the HIR is its
operator list, parses are numbers, nothing is a definition file. -/
def ctxW : WsCtx Nat Nat (List OpData) Nat :=
  { isRhaiDef := fun _ => false,
    isValidIdent := fun _ => true,
    normalize := fun u => u,
    parseScript := fun _ _ => 0,
    parseDef := fun _ _ => 0,
    parseText := fun _ => "",
    cloneSyntax := fun p => p,
    hirOperators := fun h => h,
    hirSourceByUrl := fun _ _ => none,
    hirRemoveSource := fun h _ => h,
    hirAddSource := fun h _ _ => h }

/-- An empty workspace over `ctxW`'s types. -/
def wsEmpty : WorkspaceW Nat (List OpData) :=
  { documents := [], hir := [], custom_operators := ∅ }

/-- One operator record lacking an `rhs_ty`. -/
def hirOpsNone : List OpData :=
  [{ name := "~~", lhs_ty := 0, rhs_ty := none, binding_powers := (10, 11) }]

/-- One operator record with an `rhs_ty`. -/
def hirOpsSome : List OpData :=
  [{ name := "foo", lhs_ty := 1, rhs_ty := some 2, binding_powers := (3, 4) }]

/-! ## Theorems -/

/-- C8: the input `123.0` lexes as a single `LIT_FLOAT` token, `0x1F` as
a single `LIT_INT` token, and `123` as a single `LIT_INT` token: the
decimal-integer rule's explicit priority 3 beats the float rule's 2 on a
length tie, and a longer match wins regardless of priority. -/
theorem lex_priorities :
    tokenize "123.0".toList = [(SyntaxKind.LIT_FLOAT, "123.0".toList)] ∧
    tokenize "0x1F".toList = [(SyntaxKind.LIT_INT, "0x1F".toList)] ∧
    tokenize "123".toList = [(SyntaxKind.LIT_INT, "123".toList)] := by
  refine ⟨?_, ?_, ?_⟩ <;> decide

/-- C9: `is_reserved_keyword` holds exactly for the kinds declared from
`KW_VAR` (inclusive) up to `KW_NIL` (exclusive) — the 24 reserved
keywords other than `KW_NIL` — and is false for `KW_NIL` itself, for
every active keyword, all punctuation, operators, literals, and node
kinds. -/
theorem is_reserved_keyword_spec (k : SyntaxKind) :
    (SyntaxKind.is_reserved_keyword k = true ↔
      k ∈ [SyntaxKind.KW_VAR, SyntaxKind.KW_STATIC, SyntaxKind.KW_GOTO,
           SyntaxKind.KW_EXIT, SyntaxKind.KW_MATCH, SyntaxKind.KW_CASE,
           SyntaxKind.KW_PUBLIC, SyntaxKind.KW_PROTECTED, SyntaxKind.KW_NEW,
           SyntaxKind.KW_USE, SyntaxKind.KW_WITH, SyntaxKind.KW_MODULE,
           SyntaxKind.KW_PACKAGE, SyntaxKind.KW_SUPER, SyntaxKind.KW_SPAWN,
           SyntaxKind.KW_THREAD, SyntaxKind.KW_GO, SyntaxKind.KW_SYNC,
           SyntaxKind.KW_ASYNC, SyntaxKind.KW_AWAIT, SyntaxKind.KW_YIELD,
           SyntaxKind.KW_DEFAULT, SyntaxKind.KW_VOID, SyntaxKind.KW_NULL]) ∧
    SyntaxKind.is_reserved_keyword SyntaxKind.KW_NIL = false := by
  refine ⟨?_, by decide⟩
  cases k <;> decide

/-- C9 witness: the boundary values, by the theorem itself. -/
theorem is_reserved_keyword_spec_witness :
    SyntaxKind.is_reserved_keyword SyntaxKind.KW_VAR = true ∧
    SyntaxKind.is_reserved_keyword SyntaxKind.KW_NIL = false :=
  ⟨(is_reserved_keyword_spec SyntaxKind.KW_VAR).1.mpr (by decide),
   (is_reserved_keyword_spec SyntaxKind.KW_VAR).2⟩

/-- C5: indexing the HIR by a live symbol handle whose data is
`Virtual(Proxy{target})` returns the arena entry of `target` — exactly
one level of indirection, whatever the target's own kind — and indexing
by a live non-proxy handle returns that symbol's own data. -/
theorem index_proxy_transparent (h : Hir) (s : Nat) (d : SymbolData)
    (hs : arenaGet h.symbols s = some d) :
    (∀ t, d.kind = .virt (.proxy t) → Hir.indexSymbol h s = arenaGet h.symbols t) ∧
    ((∀ t, d.kind ≠ .virt (.proxy t)) → Hir.indexSymbol h s = some d) := by
  constructor
  · intro t ht
    simp only [Hir.indexSymbol, hs, ht]
  · intro hnp
    cases hk : d.kind with
    | virt v =>
      cases v with
      | proxy t => exact absurd hk (hnp t)
      | other tag => simp only [Hir.indexSymbol, hs, hk]
    | _ => simp only [Hir.indexSymbol, hs, hk]

/-- C5 witness: in `hirSample`, handle 1 is a proxy onto handle 2, and
indexing returns the target's data; handle 2 is a non-proxy and indexing
returns its own data. -/
theorem index_proxy_transparent_witness :
    Hir.indexSymbol hirSample 1 = arenaGet hirSample.symbols 2 ∧
    Hir.indexSymbol hirSample 2 = some symTarget :=
  ⟨(index_proxy_transparent hirSample 1 symProxy (by decide)).1 2 (by decide),
   (index_proxy_transparent hirSample 2 symTarget (by decide)).2
     (fun t ht => by simp [symTarget] at ht)⟩

/-- `(l.find? p).map f` is `some` exactly when some element satisfies `p`. -/
theorem find_map_isSome {α β : Type} (f : α → β) (p : α → Bool) (l : List α) :
    ((l.find? p).map f).isSome ↔ ∃ x ∈ l, p x = true := by
  induction l with
  | nil => simp
  | cons a rest ih =>
    cases hp : p a with
    | true =>
      refine iff_of_true ?_ ⟨a, List.mem_cons_self a rest, hp⟩
      simp [List.find?_cons, hp]
    | false =>
      simp only [List.find?_cons, hp]
      rw [ih]
      constructor
      · rintro ⟨x, hm, hx⟩
        exact ⟨x, List.mem_cons_of_mem a hm, hx⟩
      · rintro ⟨x, hm, hx⟩
        rcases List.mem_cons.mp hm with he | hm
        · subst he
          rw [hp] at hx
          cases hx
        · exact ⟨x, hm, hx⟩

/-- An arena lookup is `some` exactly when the key is live. -/
theorem arenaGet_isSome {α : Type} (l : List (Nat × α)) (k : Nat) :
    (arenaGet l k).isSome ↔ ∃ d, (k, d) ∈ l := by
  unfold arenaGet
  rw [find_map_isSome]
  constructor
  · rintro ⟨⟨k', d⟩, hm, hk⟩
    simp only [beq_iff_eq] at hk
    subst hk
    exact ⟨d, hm⟩
  · rintro ⟨d, hm⟩
    exact ⟨(k, d), hm, by simp⟩

/-- C10: the public lookups `Hir::symbol`, `Hir::scope`, `Hir::module`
and `Hir::source_of` are total: each returns `some` exactly when the
handle (or a source with exactly that URL) is present in the
corresponding arena, and `none` otherwise; by contrast, the `Index`
implementation has nothing to return for an absent handle (the model's
`none` marks the panic). -/
theorem hir_accessors_total (h : Hir) (s sc m : Nat) (u : String) :
    ((Hir.symbol h s).isSome ↔ ∃ d, (s, d) ∈ h.symbols) ∧
    ((Hir.scope h sc).isSome ↔ ∃ d, (sc, d) ∈ h.scopes) ∧
    ((Hir.module h m).isSome ↔ ∃ d, (m, d) ∈ h.modules) ∧
    ((Hir.source_of h u).isSome ↔ ∃ src data, (src, data) ∈ h.sources ∧ data.url = u) ∧
    ((¬ ∃ d, (s, d) ∈ h.symbols) → Hir.indexSymbol h s = none) := by
  refine ⟨arenaGet_isSome _ _, arenaGet_isSome _ _, arenaGet_isSome _ _, ?_, ?_⟩
  · unfold Hir.source_of
    rw [find_map_isSome]
    constructor
    · rintro ⟨⟨src, data⟩, hm, hu⟩
      simp only [beq_iff_eq] at hu
      exact ⟨src, data, hm, hu⟩
    · rintro ⟨src, data, hm, hu⟩
      exact ⟨(src, data), hm, by simp [hu]⟩
  · intro habs
    have : arenaGet h.symbols s = none := by
      rcases hn : arenaGet h.symbols s with _ | d
      · rfl
      · exact absurd ((arenaGet_isSome h.symbols s).mp (by rw [hn]; rfl)) habs
    simp [Hir.indexSymbol, this]

/-- C10 witness: in `hirSample`, present and absent handles behave as the
theorem states, by the theorem itself. -/
theorem hir_accessors_total_witness :
    (Hir.symbol hirSample 2).isSome ∧ ¬ (Hir.symbol hirSample 9).isSome ∧
    (Hir.source_of hirSample "file:///a.rhai").isSome ∧
    Hir.indexSymbol hirSample 9 = none := by
  refine ⟨?_, ?_, ?_, ?_⟩
  · exact (hir_accessors_total hirSample 2 3 4 "file:///a.rhai").1.mpr ⟨symTarget, by decide⟩
  · intro hsome
    rcases (hir_accessors_total hirSample 9 3 4 "file:///a.rhai").1.mp hsome with ⟨d, hd⟩
    simp [hirSample] at hd
  · exact (hir_accessors_total hirSample 2 3 4 "file:///a.rhai").2.2.2.1.mpr
      ⟨5, { url := "file:///a.rhai" }, by simp [hirSample], rfl⟩
  · exact (hir_accessors_total hirSample 9 3 4 "x").2.2.2.2
      (fun hex => by rcases hex with ⟨d, hd⟩; simp [hirSample] at hd)

/-- C2 counterexample: with a single `Op` symbol whose `rhs_ty` is
absent, `check_operators`'s computed set contains no tuple for it at all
(the `let rhs_ty = op.rhs_ty?` line filters it out), refuting the claim
that no `Op` symbol is omitted. -/
theorem newOperators_omits_missing_rhs :
    ¬ (∀ op ∈ ctxW.hirOperators hirOpsNone, ∃ r,
        (op.name, op.lhs_ty, r, op.binding_powers) ∈ newOperators ctxW hirOpsNone) := by
  intro hclaim
  obtain ⟨r, hr⟩ :=
    hclaim { name := "~~", lhs_ty := 0, rhs_ty := none, binding_powers := (10, 11) }
      (by simp [ctxW, hirOpsNone])
  simp [newOperators, ctxW, hirOpsNone] at hr

/-- C2 amended: the operator set computed by `check_operators` contains
the tuple `(name, lhs_ty, rhs_ty, binding_powers)` of every `Op` symbol
enumerated by `hir.operators()` whose `rhs_ty` is present, and every
tuple of the set comes from such a symbol; symbols whose `rhs_ty` is
absent are omitted. -/
theorem newOperators_complete {P Y H S : Type} (ctx : WsCtx P Y H S) (hir : H) :
    (∀ op ∈ ctx.hirOperators hir, ∀ r, op.rhs_ty = some r →
      (op.name, op.lhs_ty, r, op.binding_powers) ∈ newOperators ctx hir) ∧
    (∀ t ∈ newOperators ctx hir, ∃ op ∈ ctx.hirOperators hir, ∃ r,
      op.rhs_ty = some r ∧ t = (op.name, op.lhs_ty, r, op.binding_powers)) := by
  constructor
  · intro op hmem r hr
    unfold newOperators
    rw [List.mem_toFinset]
    exact List.mem_filterMap.mpr ⟨op, hmem, by rw [hr]; rfl⟩
  · intro t ht
    unfold newOperators at ht
    rw [List.mem_toFinset] at ht
    obtain ⟨op, hmem, hf⟩ := List.mem_filterMap.mp ht
    rcases hrt : op.rhs_ty with _ | r
    · rw [hrt] at hf
      cases hf
    · rw [hrt] at hf
      exact ⟨op, hmem, r, hrt, by cases hf; rfl⟩

/-- C2 witness: an operator with a present `rhs_ty` lands in the set. -/
theorem newOperators_complete_witness :
    ("foo", 1, 2, (3, 4)) ∈ newOperators ctxW hirOpsSome :=
  (newOperators_complete ctxW hirOpsSome).1
    { name := "foo", lhs_ty := 1, rhs_ty := some 2, binding_powers := (3, 4) }
    (by simp [ctxW, hirOpsSome]) 2 rfl

/-- Every member of a list is at most the `foldr max 0` of the list. -/
theorem le_foldr_max (x : Nat) (l : List Nat) (hx : x ∈ l) : x ≤ l.foldr max 0 := by
  induction l with
  | nil => cases hx
  | cons a rest ih =>
    rcases List.mem_cons.mp hx with he | hm
    · subst he
      exact le_max_left _ _
    · exact le_trans (ih hm) (le_max_right _ _)

/-- A fresh key is not among the live keys. -/
theorem freshKey_not_mem {α : Type} (l : List (Nat × α)) : ∀ p ∈ l, p.1 ≠ freshKey l := by
  intro p hp
  have := le_foldr_max p.1 (l.map (·.1)) (List.mem_map_of_mem _ hp)
  unfold freshKey
  omega

/-- Looking up a freshly appended entry after a key-targeted patch
returns the patched data. -/
theorem arenaGet_append_patch {α : Type} (l : List (Nat × α)) (k : Nat) (d : α)
    (f : α → α) (hk : ∀ p ∈ l, p.1 ≠ k) :
    arenaGet ((l ++ [(k, d)]).map (fun p => if p.1 == k then (p.1, f p.2) else p)) k
      = some (f d) := by
  induction l with
  | nil => simp [arenaGet, List.find?]
  | cons a rest ih =>
    have ha : a.1 ≠ k := hk a (List.mem_cons_self _ _)
    have hstep : ((a :: rest ++ [(k, d)]).map
        (fun p => if p.1 == k then (p.1, f p.2) else p)) =
        a :: ((rest ++ [(k, d)]).map (fun p => if p.1 == k then (p.1, f p.2) else p)) := by
      simp [ha]
    rw [hstep]
    have hfind : arenaGet (a :: ((rest ++ [(k, d)]).map
        (fun p => if p.1 == k then (p.1, f p.2) else p))) k =
        arenaGet ((rest ++ [(k, d)]).map (fun p => if p.1 == k then (p.1, f p.2) else p)) k := by
      simp [arenaGet, List.find?_cons, ha]
    rw [hfind]
    exact ih (fun p hp => hk p (List.mem_cons_of_mem _ hp))

/-- C7 amended: lowering an `op` definition statement extracts the name
as the first identifier-or-infix-punctuation token after the first token
(the `op` keyword), and the created `Op` symbol records that name and the
statement's docs while leaving `lhs_ty`, `rhs_ty` and `binding_powers` at
their `OpSymbol::default()` values (`0`/`none`/`(0, 0)`), not at anything
declared by the definition. -/
theorem op_def_symbol_shape (ctx : DefCtx) (source scope : Nat) (stmt : DefStmtM)
    (item : ItemM) (f : OpDefM) (name : TokenM) (h : Hir)
    (hitem : stmt.item = some item) (hdef : item.defItem = some (.opDef f))
    (hfind : ((f.elements.filterMap ElemM.into_token).drop 1).find?
      (fun t => t.kind == SyntaxKind.IDENT || (ctx.infix_binding_power t.kind).isSome)
        = some name) :
    (add_def_statement ctx source scope stmt h).symbols.length = h.symbols.length + 1 ∧
    arenaGet (add_def_statement ctx source scope stmt h).symbols (freshKey h.symbols) =
      some { «export» := true,
             parent_scope := some scope,
             source := { source := some source, text_range := some f.text_range,
                         selection_text_range := some name.text_range },
             kind := .op { name := name.text, lhs_ty := 0, rhs_ty := none,
                           binding_powers := (0, 0), docs := item.docs_content } } := by
  have hred : add_def_statement ctx source scope stmt h =
      scopeAddSymbol
        { h with symbols := h.symbols ++
            [(freshKey h.symbols,
              { «export» := true,
                source := { source := some source, text_range := some f.text_range,
                            selection_text_range := some name.text_range },
                parent_scope := none,
                kind := .op { name := name.text, docs := item.docs_content } })] }
        scope (freshKey h.symbols) true := by
    unfold add_def_statement
    rw [hitem]
    simp only [Option.some_bind, hdef, hfind, Option.map_some]
    rfl
  rw [hred]
  constructor
  · simp [scopeAddSymbol]
  · simp only [scopeAddSymbol]
    exact arenaGet_append_patch h.symbols (freshKey h.symbols) _
      (fun d => { d with parent_scope := some scope }) (freshKey_not_mem h.symbols)

/-- C7 counterexample: the definition `fOp` declares binding powers
`(10, 11)`, yet no symbol produced by lowering it records them — the
created `Op` symbol carries the default `(0, 0)`. -/
theorem op_def_drops_declared_binding_powers :
    fOp.declared_binding_powers = some (10, 11) ∧
    ¬ (∀ bp, fOp.declared_binding_powers = some bp →
        ∃ p ∈ (add_def_statement ctxD 0 1 stmtOp h0).symbols, ∃ o,
          p.2.kind = SymbolKind.op o ∧ o.binding_powers = bp) := by
  refine ⟨rfl, ?_⟩
  intro hclaim
  obtain ⟨p, hp, o, hk, hbp⟩ := hclaim (10, 11) rfl
  have hps : (add_def_statement ctxD 0 1 stmtOp h0).symbols = [(1, opEntry)] := by decide
  rw [hps] at hp
  have hpe : p = (1, opEntry) := List.mem_singleton.mp hp
  subst hpe
  have hko : SymbolKind.op { name := "foo" } = SymbolKind.op o := hk
  cases hko
  exact absurd hbp (by decide)

/-- C7 witness: lowering `fOp` under `ctxD` yields exactly the
default-powered symbol, by the amended theorem at that input. -/
theorem op_def_symbol_shape_witness :
    arenaGet (add_def_statement ctxD 0 1 stmtOp h0).symbols 1 = some opEntry :=
  (op_def_symbol_shape ctxD 0 1 stmtOp
    { docs_content := "", defItem := some (.opDef fOp) } fOp
    { kind := .IDENT, text := "foo" } h0 rfl rfl (by decide)).2

/-- `sameEK` is reflexive. -/
theorem sameEK_refl (a : SymbolData) : sameEK a a := ⟨rfl, rfl⟩

/-- `sameEK` is transitive. -/
theorem sameEK_trans {a b c : SymbolData} (h1 : sameEK a b) (h2 : sameEK b c) :
    sameEK a c := ⟨h1.1.trans h2.1, h1.2.trans h2.2⟩

/-- `ExportOk` only depends on the export flag and the kind. -/
theorem exportOk_of_sameEK {a b : SymbolData} (he : sameEK a b) (hb : ExportOk b) :
    ExportOk a := by
  rcases hb with hb | ⟨ds, hk, hp, hf⟩
  · exact Or.inl (he.1.trans hb)
  · exact Or.inr ⟨ds, he.2.trans hk, hp, he.1.trans hf⟩

/-- `SymsFrom` holds reflexively. -/
theorem symsFrom_refl (base : List (Nat × SymbolData)) : SymsFrom base base :=
  fun p hp => Or.inl ⟨p, hp, sameEK_refl _⟩

/-- Inserting a disciplined symbol preserves `SymsFrom`. -/
theorem symsFrom_addSymbolK {base : List (Nat × SymbolData)} {h : Hir} {d : SymbolData}
    (hs : SymsFrom base h.symbols) (hd : ExportOk d) :
    SymsFrom base ((addSymbolK h d).1).symbols := by
  intro p hp
  simp only [addSymbolK, List.mem_append, List.mem_singleton] at hp
  rcases hp with hp | hp
  · exact hs p hp
  · subst hp
    exact Or.inr hd

/-- Registering a symbol in a scope only patches `parent_scope` fields,
so it preserves `SymsFrom`. -/
theorem symsFrom_scopeAddSymbol {base : List (Nat × SymbolData)} {h : Hir}
    {sc sym : Nat} {hoist : Bool} (hs : SymsFrom base h.symbols) :
    SymsFrom base (scopeAddSymbol h sc sym hoist).symbols := by
  intro p hp
  simp only [scopeAddSymbol, List.mem_map] at hp
  obtain ⟨q, hq, hpq⟩ := hp
  have hek : sameEK p.2 q.2 := by
    by_cases hqs : q.1 == sym
    · rw [if_pos hqs] at hpq
      subst hpq
      exact ⟨rfl, rfl⟩
    · rw [if_neg hqs] at hpq
      subst hpq
      exact sameEK_refl _
  rcases hs q hq with ⟨r, hr, hqr⟩ | hok
  · exact Or.inl ⟨r, hr, sameEK_trans hek hqr⟩
  · exact Or.inr (exportOk_of_sameEK hek hok)

/-- Creating a scope leaves the symbol arena untouched. -/
theorem addScopeK_symbols (h : Hir) (d : ScopeData) :
    ((addScopeK h d).1).symbols = h.symbols := rfl

/-- Re-parenting a scope leaves the symbol arena untouched. -/
theorem scopeSetParent_symbols (h : Hir) (sc sym : Nat) :
    (scopeSetParent h sc sym).symbols = h.symbols := rfl

/-- Appending disciplined expression-lowering output preserves
`SymsFrom`. -/
theorem symsFrom_appendSymbols {base : List (Nat × SymbolData)} {h : Hir}
    {l : List SymbolData} (hs : SymsFrom base h.symbols)
    (hl : ∀ d ∈ l, ExportOk d) : SymsFrom base (appendSymbols h l).symbols := by
  induction l generalizing h with
  | nil => exact hs
  | cons d rest ih =>
    exact ih (symsFrom_addSymbolK hs (hl d (List.mem_cons_self _ _)))
      (fun d' hd' => hl d' (List.mem_cons_of_mem _ hd'))

/-- Lowering a parameter list preserves the export-flag discipline: each
parameter symbol is a non-exported `is_param` declaration. -/
theorem symsFrom_params_foldl {base : List (Nat × SymbolData)}
    (source fn_scope : Nat) (params : List ParamM) {h : Hir}
    (hs : SymsFrom base h.symbols) :
    SymsFrom base ((params.foldl (fun h param =>
      let (h, symbol) := addSymbolK h
        { «export» := false, parent_scope := none,
          source := { source := some source, text_range := some param.text_range,
                      selection_text_range := param.ident_token.map (·.text_range) },
          kind := .decl { name := (param.ident_token.map (·.text)).getD "",
                          is_param := true } }
      scopeAddSymbol h fn_scope symbol false) h)).symbols := by
  induction params generalizing h with
  | nil => exact hs
  | cons param rest ih =>
    exact ih (symsFrom_scopeAddSymbol (symsFrom_addSymbolK hs (Or.inr ⟨_, rfl, rfl, rfl⟩)))

/-- C3 amended: every symbol created by `add_def_statement` — import
symbols, import aliases, constants, functions, operators — has
`export = true`, except function parameter symbols, which are created
with `export = false` (and marked `is_param`); symbols emitted by
expression lowering are exported by hypothesis. -/
theorem def_statement_export_flags (ctx : DefCtx) (source scope : Nat)
    (stmt : DefStmtM) (h : Hir)
    (hexpr : ∀ src sc b e, ∀ d ∈ (ctx.addExpression src sc b e).1, d.«export» = true) :
    SymsFrom h.symbols (add_def_statement ctx source scope stmt h).symbols := by
  rcases hitem : stmt.item with _ | item
  · unfold add_def_statement
    rw [hitem]
    exact symsFrom_refl _
  · rcases hdef : item.defItem with _ | d
    · unfold add_def_statement
      rw [hitem]
      dsimp only [Option.bind]
      rw [hdef]
      exact symsFrom_refl _
    · cases d with
      | importDef imp =>
        unfold add_def_statement
        rw [hitem]
        dsimp only [Option.bind]
        rw [hdef]
        dsimp only
        rcases hal : imp.«alias» with _ | al <;> rcases hex : imp.expr with _ | e
        · rw [scopeSetParent_symbols]
          exact symsFrom_scopeAddSymbol (symsFrom_addSymbolK (symsFrom_refl _) (Or.inl rfl))
        · rw [scopeSetParent_symbols]
          exact symsFrom_scopeAddSymbol (symsFrom_addSymbolK
            (symsFrom_appendSymbols (symsFrom_refl _)
              (fun d hd => Or.inl (hexpr _ _ _ _ d hd)))
            (Or.inl rfl))
        · rw [scopeSetParent_symbols]
          exact symsFrom_scopeAddSymbol (symsFrom_addSymbolK
            (symsFrom_scopeAddSymbol (symsFrom_addSymbolK (symsFrom_refl _) (Or.inl rfl)))
            (Or.inl rfl))
        · rw [scopeSetParent_symbols]
          exact symsFrom_scopeAddSymbol (symsFrom_addSymbolK
            (symsFrom_appendSymbols
              (symsFrom_scopeAddSymbol (symsFrom_addSymbolK (symsFrom_refl _) (Or.inl rfl)))
              (fun d hd => Or.inl (hexpr _ _ _ _ d hd)))
            (Or.inl rfl))
      | constDef cd =>
        unfold add_def_statement
        rw [hitem]
        dsimp only [Option.bind]
        rw [hdef]
        dsimp only
        rcases hct : cd.ident_token with _ | tok
        · exact symsFrom_refl _
        · exact symsFrom_scopeAddSymbol (symsFrom_addSymbolK (symsFrom_refl _) (Or.inl rfl))
      | fnDef fd =>
        unfold add_def_statement
        rw [hitem]
        dsimp only [Option.bind]
        rw [hdef]
        dsimp only
        rcases hpl : fd.typed_param_list with _ | params
        · rw [scopeSetParent_symbols]
          exact symsFrom_scopeAddSymbol (symsFrom_addSymbolK (symsFrom_refl _) (Or.inl rfl))
        · rw [scopeSetParent_symbols]
          exact symsFrom_scopeAddSymbol (symsFrom_addSymbolK
            (symsFrom_params_foldl source _ params (symsFrom_refl _)) (Or.inl rfl))
      | opDef f =>
        unfold add_def_statement
        rw [hitem]
        dsimp only [Option.bind]
        rw [hdef]
        dsimp only
        rcases hfd : ((f.elements.filterMap ElemM.into_token).drop 1).find?
            (fun t => t.kind == SyntaxKind.IDENT || (ctx.infix_binding_power t.kind).isSome)
          with _ | tok <;> rw [hfd]
        · exact symsFrom_refl _
        · exact symsFrom_scopeAddSymbol (symsFrom_addSymbolK (symsFrom_refl _) (Or.inl rfl))
      | typeDef =>
        unfold add_def_statement
        rw [hitem]
        dsimp only [Option.bind]
        rw [hdef]
        dsimp only
        exact symsFrom_refl _
/-- C3 counterexample: lowering the definition statement `fn greet(name)`
creates the parameter symbol for `name` with `export = false`, refuting
the claim that every symbol produced by a definition file is exported. -/
theorem def_param_symbol_not_exported :
    ¬ (∀ p ∈ (add_def_statement ctxD 0 1 stmtFn h0).symbols, p.2.«export» = true) := by
  decide

/-- C3 witness: the amended theorem applied to `stmtFn` at the parameter
symbol it creates. -/
theorem def_statement_export_flags_witness :
    (∃ q ∈ h0.symbols, sameEK paramEntry q.2) ∨ ExportOk paramEntry :=
  def_statement_export_flags ctxD 0 1 stmtFn h0
    (fun _ _ _ _ _ hd => absurd hd (List.not_mem_nil _))
    (1, paramEntry) (by decide)

/-- C6: `add_def` resolves a definition module declaration exactly as
specified — a `static` keyword yields `Static`; a string-literal name
yields `Url` of the quote-stripped, unescaped string resolved against the
containing source's URL, and the whole module (statements included) is
skipped when resolution fails; a bare identifier yields
`Url("static://<ident>")`; an absent name yields the derived script URL
of the containing source (falling back to the source URL itself when no
script URL can be derived). -/
theorem add_def_module_kind (ctx : DefCtx) (source : Nat) (d : RhaiDefM)
    (decl : DefModuleDeclM) (dm : DefModuleM) (h : Hir) (srcData : SourceData)
    (hdecl : d.def_module_decl = some decl) (hdm : decl.def_module = some dm)
    (hsrc : arenaGet h.sources source = some srcData) :
    (dm.kw_static_token = true → moduleKindOf ctx srcData.url dm = some .static) ∧
    (∀ tok, dm.kw_static_token = false → dm.lit_str_token = some tok →
      moduleKindOf ctx srcData.url dm =
        (ctx.resolve_import_url (some srcData.url)
          (ctx.unescape (stripQuotes tok.text))).map ModuleKind.url) ∧
    (∀ tok, dm.kw_static_token = false → dm.lit_str_token = some tok →
      ctx.resolve_import_url (some srcData.url) (ctx.unescape (stripQuotes tok.text)) = none →
      add_def ctx source d h = some h) ∧
    (∀ tok, dm.kw_static_token = false → dm.lit_str_token = none →
      dm.ident_token = some tok →
      moduleKindOf ctx srcData.url dm = some (.url ("static://" ++ tok.text))) ∧
    (dm.kw_static_token = false → dm.lit_str_token = none → dm.ident_token = none →
      moduleKindOf ctx srcData.url dm =
        some (.url ((ctx.script_url srcData.url).getD srcData.url))) := by
  refine ⟨?_, ?_, ?_, ?_, ?_⟩
  · intro hst
    simp [moduleKindOf, hst]
  · intro tok hst hlit
    simp [moduleKindOf, hst, hlit]
  · intro tok hst hlit hres
    have hkind : moduleKindOf ctx srcData.url dm = none := by
      simp [moduleKindOf, hst, hlit, hres]
    unfold add_def
    rw [hdecl]
    dsimp only
    rw [hdm]
    dsimp only
    rw [hsrc]
    dsimp only
    rw [hkind]
  · intro tok hst hlit hid
    simp [moduleKindOf, hst, hlit, hid, STATIC_URL_SCHEME]
  · intro hst hlit hid
    simp [moduleKindOf, hst, hlit, hid]

/-- C6 witness: a `module static` declaration resolves to the static
module kind, by the theorem at a concrete definition file and source. -/
theorem add_def_module_kind_witness :
    moduleKindOf ctxD "file:///a/b.rhai"
      { kw_static_token := true, lit_str_token := none, ident_token := none } =
      some ModuleKind.static :=
  (add_def_module_kind ctxD 7 defStatic
    { docs_content := "", def_module := some { kw_static_token := true } }
    { kw_static_token := true } hirSrc { url := "file:///a/b.rhai", kind := .definition }
    rfl rfl (by decide)).1 rfl

/-- Every pattern match consumes at least one character. -/
theorem patternLen_pos (m : Matcher) (cs : List Char) (n : Nat)
    (hm : patternLen m cs = some n) : 1 ≤ n := by
  cases m with
  | exact s =>
    simp only [patternLen] at hm
    split at hm
    · rename_i hcond
      rw [Bool.and_eq_true, decide_eq_true_eq] at hcond
      cases hm
      exact List.length_pos.mpr hcond.1
    · cases hm
  | strLit delim =>
    simp only [patternLen] at hm
    split at hm
    · cases hm
      omega
    · cases hm
  | charLit =>
    simp only [patternLen] at hm
    repeat' split at hm
    all_goals (cases hm <;> omega)
  | decInt =>
    simp only [patternLen] at hm
    repeat' split at hm
    all_goals (cases hm <;> omega)
  | hexInt =>
    simp only [patternLen] at hm
    repeat' split at hm
    all_goals (cases hm <;> omega)
  | octInt =>
    simp only [patternLen] at hm
    repeat' split at hm
    all_goals (cases hm <;> omega)
  | binInt =>
    simp only [patternLen] at hm
    repeat' split at hm
    all_goals (cases hm <;> omega)
  | floatLit =>
    simp only [patternLen] at hm
    repeat' split at hm
    all_goals (cases hm <;> omega)
  | boolLit =>
    simp only [patternLen] at hm
    repeat' split at hm
    all_goals (cases hm <;> omega)
  | shebang =>
    simp only [patternLen] at hm
    repeat' split at hm
    all_goals (cases hm <;> omega)
  | ident =>
    simp only [patternLen] at hm
    repeat' split at hm
    all_goals (cases hm <;> omega)
  | commentLine =>
    simp only [patternLen] at hm
    repeat' split at hm
    all_goals (cases hm <;> omega)
  | commentLineDoc =>
    simp only [patternLen] at hm
    repeat' split at hm
    all_goals (cases hm <;> omega)
  | blockCmt opener =>
    simp only [patternLen] at hm
    split at hm
    · rename_i hcond
      rw [Bool.and_eq_true, decide_eq_true_eq] at hcond
      cases hm
      exact List.length_pos.mpr hcond.1
    · cases hm
  | whitespace =>
    simp only [patternLen] at hm
    repeat' split at hm
    all_goals (cases hm <;> omega)

/-- Callbacks keep the token length positive. -/
theorem runCallback_pos (m : Matcher) (patLen : Nat) (cs : List Char) (total : Nat)
    (hp : 1 ≤ patLen) (hc : runCallback m patLen cs = some total) : 1 ≤ total := by
  cases m <;> simp only [runCallback] at hc
  all_goals first
    | (cases hc; exact hp)
    | (obtain ⟨i, hi, hfi⟩ := Option.map_eq_some'.mp hc; omega)

/-- A step of the choice fold only produces candidates whose length their
matcher really matches. -/
theorem pickStep_sound (cs : List Char) (acc : Option (SyntaxKind × Matcher × Nat × Nat))
    (r : LexRule)
    (hacc : ∀ k m n p, acc = some (k, m, n, p) → patternLen m cs = some n) :
    ∀ k m n p, pickStep cs acc r = some (k, m, n, p) → patternLen m cs = some n := by
  intro k m n p hstep
  unfold pickStep at hstep
  split at hstep
  · exact hacc k m n p hstep
  · rename_i n' hn'
    split at hstep
    · cases hstep
      exact hn'
    · split at hstep
      · cases hstep
        exact hn'
      · rename_i bk bm bn bp hif
        cases hstep
        exact hacc k m n p rfl

/-- Folding choice steps preserves candidate soundness. -/
theorem pickFold_sound (cs : List Char) (rs : List LexRule) :
    ∀ acc, (∀ k m n p, acc = some (k, m, n, p) → patternLen m cs = some n) →
      ∀ k m n p, rs.foldl (pickStep cs) acc = some (k, m, n, p) →
        patternLen m cs = some n := by
  induction rs with
  | nil => exact fun acc hacc => hacc
  | cons r rest ih => exact fun acc hacc => ih _ (pickStep_sound cs acc r hacc)

/-- The chosen rule's pattern really matches with the chosen length. -/
theorem pickBest_sound (cs : List Char) (k : SyntaxKind) (m : Matcher) (n p : Nat)
    (h : pickBest cs = some (k, m, n, p)) : patternLen m cs = some n :=
  pickFold_sound cs lexRules none (fun _ _ _ _ hx => by cases hx) k m n p h

/-- Every token consumes at least one character. -/
theorem nextToken_len_pos (cs : List Char) : 1 ≤ (nextToken cs).2 := by
  unfold nextToken
  split
  · exact Nat.le_refl 1
  · rename_i k m n p hpick
    split
    · rename_i total hcb
      exact runCallback_pos m n cs total
        (patternLen_pos m cs n (pickBest_sound cs k m n p hpick)) hcb
    · exact patternLen_pos m cs n (pickBest_sound cs k m n p hpick)

/-- Concatenating slices distributes over the head token. -/
theorem joinSlices_cons (t : SyntaxKind × List Char) (ts : List (SyntaxKind × List Char)) :
    joinSlices (t :: ts) = t.2 ++ joinSlices ts := rfl

/-- With fuel at least the input length, the slices concatenate back to
the input. -/
theorem lexGo_join : ∀ (fuel : Nat) (cs : List Char), cs.length ≤ fuel →
    joinSlices (lexGo fuel cs) = cs := by
  intro fuel
  induction fuel with
  | zero =>
    intro cs h
    have : cs = [] := List.eq_nil_of_length_eq_zero (Nat.le_zero.mp h)
    subst this
    rfl
  | succ f ih =>
    intro cs h
    match cs with
    | [] => rfl
    | c :: rest =>
      rw [show lexGo (f + 1) (c :: rest) =
          ((nextToken (c :: rest)).1, (c :: rest).take (nextToken (c :: rest)).2) ::
            lexGo f ((c :: rest).drop (nextToken (c :: rest)).2) from rfl]
      rw [joinSlices_cons]
      rw [ih ((c :: rest).drop (nextToken (c :: rest)).2) (by
        have hpos := nextToken_len_pos (c :: rest)
        rw [List.length_drop]
        simp only [List.length_cons] at h ⊢
        omega)]
      exact List.take_append_drop _ _

/-- No token has an empty slice. -/
theorem lexGo_slices_nonempty : ∀ (fuel : Nat) (cs : List Char) (t : SyntaxKind × List Char),
    t ∈ lexGo fuel cs → t.2 ≠ [] := by
  intro fuel
  induction fuel with
  | zero =>
    intro cs t ht
    simp [lexGo] at ht
  | succ f ih =>
    intro cs t ht
    match cs with
    | [] => simp [lexGo] at ht
    | c :: rest =>
      rw [show lexGo (f + 1) (c :: rest) =
          ((nextToken (c :: rest)).1, (c :: rest).take (nextToken (c :: rest)).2) ::
            lexGo f ((c :: rest).drop (nextToken (c :: rest)).2) from rfl] at ht
      rcases List.mem_cons.mp ht with he | hm
      · subst he
        have hpos := nextToken_len_pos (c :: rest)
        cases hn : (nextToken (c :: rest)).2 with
        | zero => omega
        | succ k => simp [hn]
      · exact ih _ t hm

/-- The stream has at most one token per input character. -/
theorem lexGo_count : ∀ (fuel : Nat) (cs : List Char), cs.length ≤ fuel →
    (lexGo fuel cs).length ≤ cs.length := by
  intro fuel
  induction fuel with
  | zero =>
    intro cs h
    have : cs = [] := List.eq_nil_of_length_eq_zero (Nat.le_zero.mp h)
    subst this
    exact Nat.le_refl 0
  | succ f ih =>
    intro cs h
    match cs with
    | [] => exact Nat.le_refl 0
    | c :: rest =>
      rw [show lexGo (f + 1) (c :: rest) =
          ((nextToken (c :: rest)).1, (c :: rest).take (nextToken (c :: rest)).2) ::
            lexGo f ((c :: rest).drop (nextToken (c :: rest)).2) from rfl]
      have hpos := nextToken_len_pos (c :: rest)
      have hdl : ((c :: rest).drop (nextToken (c :: rest)).2).length ≤ f := by
        rw [List.length_drop]
        simp only [List.length_cons] at h ⊢
        omega
      have := ih ((c :: rest).drop (nextToken (c :: rest)).2) hdl
      rw [List.length_drop] at this
      simp only [List.length_cons] at h this ⊢
      omega

/-- C4: lexing any input is total (the model's fuel, the input length,
always suffices and the lexer is a total function — the source's contract
that the lexer never panics), produces finitely many tokens (at most one
per character), each with a nonempty slice, and the concatenation of all
slices — `ERROR` tokens included — is the input, byte for byte. -/
theorem lexer_lossless (cs : List Char) :
    joinSlices (tokenize cs) = cs ∧
    (∀ t ∈ tokenize cs, t.2 ≠ []) ∧
    (tokenize cs).length ≤ cs.length :=
  ⟨lexGo_join cs.length cs (Nat.le_refl _),
   fun t ht => lexGo_slices_nonempty cs.length cs t ht,
   lexGo_count cs.length cs (Nat.le_refl _)⟩

/-- C4 witness: the theorem applied to a concrete input. -/
theorem lexer_lossless_witness :
    joinSlices (tokenize ['l', 'e', 't']) = ['l', 'e', 't'] ∧
    (∀ t ∈ tokenize ['l', 'e', 't'], t.2 ≠ []) ∧
    (tokenize ['l', 'e', 't']).length ≤ 3 :=
  lexer_lossless ['l', 'e', 't']

/-- With no-duplicate keys, membership determines the lookup result. -/
theorem find_key_of_mem {α : Type} {l : List (String × α)} {u : String} {v : α}
    (hnd : (l.map Prod.fst).Nodup) (hm : (u, v) ∈ l) :
    l.find? (fun p => p.1 == u) = some (u, v) := by
  induction l with
  | nil => cases hm
  | cons a rest ih =>
    rw [List.map_cons, List.nodup_cons] at hnd
    rcases List.mem_cons.mp hm with he | hm'
    · subst he
      simp [List.find?_cons]
    · have ha : a.1 ≠ u := by
        intro hau
        exact hnd.1 (hau ▸ List.mem_map_of_mem Prod.fst hm')
      rw [List.find?_cons_of_neg _ (by simpa using ha)]
      exact ih hnd.2 hm'

/-- With no-duplicate keys, equal keys force equal entries. -/
theorem key_unique {α : Type} {l : List (String × α)} {p q : String × α}
    (hnd : (l.map Prod.fst).Nodup) (hp : p ∈ l) (hq : q ∈ l) (hk : p.1 = q.1) :
    p = q := by
  have h1 : l.find? (fun r => r.1 == p.1) = some (p.1, p.2) := find_key_of_mem hnd hp
  have h2 : l.find? (fun r => r.1 == p.1) = some (q.1, q.2) := by
    rw [hk]
    exact find_key_of_mem hnd hq
  rw [h1] at h2
  exact Option.some.inj h2

/-- Re-adding a batch of script documents with fresh, distinct URLs: the
documents are appended in order, each parsed as a script with the current
operator table, the parses' syntaxes are added to the HIR in order, and
the operator cache is untouched. -/
theorem reparse_foldl {P Y H S : Type} (ctx : WsCtx P Y H S) (fuel : Nat)
    (docs : List (String × String)) (ws : WorkspaceW P H)
    (hscr : ∀ ut ∈ docs, ctx.isRhaiDef ut.2 = false)
    (hfresh : ∀ ut ∈ docs, ∀ p ∈ ws.documents, p.1 ≠ ut.1)
    (hnd : (docs.map Prod.fst).Nodup) :
    docs.foldl (fun w ut =>
      let w' := add_document_raw ctx w ut.1 ut.2
      if ctx.isRhaiDef ut.2 then check_operators ctx fuel w' else w') ws =
    { documents := ws.documents ++ docs.map (fun ut =>
        (ut.1, ⟨ctx.parseScript (validOps ctx ws.custom_operators) ut.2, false⟩)),
      hir := docs.foldl (fun hir ut => ctx.hirAddSource hir (ctx.normalize ut.1)
        (ctx.cloneSyntax (ctx.parseScript (validOps ctx ws.custom_operators) ut.2))) ws.hir,
      custom_operators := ws.custom_operators } := by
  induction docs generalizing ws with
  | nil => simp
  | cons ut rest ih =>
    have hscr0 : ctx.isRhaiDef ut.2 = false := hscr ut (List.mem_cons_self _ _)
    rw [List.foldl_cons, List.foldl_cons]
    have hany : ws.documents.any (fun p => p.1 == ut.1) = false := by
      rw [List.any_eq_false]
      intro p hp
      simpa using hfresh ut (List.mem_cons_self _ _) p hp
    have hdocs_raw : (let w' := add_document_raw ctx ws ut.1 ut.2
        if ctx.isRhaiDef ut.2 then check_operators ctx fuel w' else w') =
        { documents := ws.documents ++
            [(ut.1, ⟨ctx.parseScript (validOps ctx ws.custom_operators) ut.2, false⟩)],
          hir := ctx.hirAddSource ws.hir (ctx.normalize ut.1)
            (ctx.cloneSyntax (ctx.parseScript (validOps ctx ws.custom_operators) ut.2)),
          custom_operators := ws.custom_operators } := by
      rw [hscr0]
      unfold add_document_raw insertDoc
      rw [hscr0]
      simp [hany]
    rw [hdocs_raw]
    rw [ih _ (fun ut' h' => hscr ut' (List.mem_cons_of_mem _ h'))
      (by
        intro ut' hut' p hp
        rcases List.mem_append.mp hp with hp1 | hp2
        · exact hfresh ut' (List.mem_cons_of_mem _ hut') p hp1
        · rcases List.mem_singleton.mp hp2 with rfl
          intro hkey
          rw [List.map_cons, List.nodup_cons] at hnd
          exact hnd.1 (hkey ▸ List.mem_map_of_mem Prod.fst hut'))
      (by
        rw [List.map_cons, List.nodup_cons] at hnd
        exact hnd.2)]
    simp [List.append_assoc]

/-- C1: `check_operators` is a no-op — documents, HIR and cache all
unchanged — when the operator set enumerated from the HIR equals the
cached `custom_operators`; when it differs, the cache is replaced, every
definition document is retained with its parse untouched (never
reparsed), every script document is reparsed as a script with the new
operator table, and the HIR has every script document's source removed
and the new parses added.  The stability hypothesis `hstable` says the
stored script texts still look like scripts to `is_rhai_def`, which is
what keeps re-added scripts from triggering a nested definition wave. -/
theorem check_operators_spec {P Y H S : Type} (ctx : WsCtx P Y H S) (fuel : Nat)
    (ws : WorkspaceW P H)
    (hnd : (ws.documents.map Prod.fst).Nodup)
    (hstable : ∀ p ∈ ws.documents, p.2.is_def = false →
      ctx.isRhaiDef (ctx.parseText p.2.parse) = false) :
    (newOperators ctx ws.hir = ws.custom_operators →
      check_operators ctx (fuel + 1) ws = ws) ∧
    (newOperators ctx ws.hir ≠ ws.custom_operators →
      (check_operators ctx (fuel + 1) ws).custom_operators = newOperators ctx ws.hir ∧
      (∀ p ∈ ws.documents, p.2.is_def = true →
        lookupDoc (check_operators ctx (fuel + 1) ws).documents p.1 = some p.2) ∧
      (∀ p ∈ ws.documents, p.2.is_def = false →
        lookupDoc (check_operators ctx (fuel + 1) ws).documents p.1 =
          some ⟨ctx.parseScript (validOps ctx (newOperators ctx ws.hir))
            (ctx.parseText p.2.parse), false⟩) ∧
      (check_operators ctx (fuel + 1) ws).hir =
        (ws.documents.filter (fun p => !p.2.is_def)).foldl
          (fun hir p => ctx.hirAddSource hir (ctx.normalize p.1)
            (ctx.cloneSyntax (ctx.parseScript (validOps ctx (newOperators ctx ws.hir))
              (ctx.parseText p.2.parse))))
          ((ws.documents.filter (fun p => !p.2.is_def)).foldl
            (fun hir p => removeByUrl ctx hir p.1) ws.hir)) := by
  constructor
  · intro heq
    unfold check_operators
    rw [if_pos heq]
  · intro hneq
    have hndD : ((ws.documents.filter (fun p => p.2.is_def)).map Prod.fst).Nodup :=
      List.Nodup.sublist (List.Sublist.map _ (List.filter_sublist _)) hnd
    have hndS : ((ws.documents.filter (fun p => !p.2.is_def)).map Prod.fst).Nodup :=
      List.Nodup.sublist (List.Sublist.map _ (List.filter_sublist _)) hnd
    have hws2 : check_operators ctx (fuel + 1) ws =
        ((ws.documents.filter (fun p => !p.2.is_def)).map
          (fun p => (p.1, ctx.parseText p.2.parse))).foldl
          (fun w ut =>
            let w' := add_document_raw ctx w ut.1 ut.2
            if ctx.isRhaiDef ut.2 then check_operators ctx fuel w' else w')
          { documents := ws.documents.filter (fun p => p.2.is_def),
            hir := (ws.documents.filter (fun p => !p.2.is_def)).foldl
              (fun hir p => removeByUrl ctx hir p.1) ws.hir,
            custom_operators := newOperators ctx ws.hir } := by
      simp only [check_operators]
      rw [if_neg hneq]
    have hrep := reparse_foldl ctx fuel
      ((ws.documents.filter (fun p => !p.2.is_def)).map
        (fun p => (p.1, ctx.parseText p.2.parse)))
      { documents := ws.documents.filter (fun p => p.2.is_def),
        hir := (ws.documents.filter (fun p => !p.2.is_def)).foldl
          (fun hir p => removeByUrl ctx hir p.1) ws.hir,
        custom_operators := newOperators ctx ws.hir }
      (by
        intro ut hut
        obtain ⟨q, hq, rfl⟩ := List.mem_map.mp hut
        have hq' := List.mem_filter.mp hq
        exact hstable q hq'.1 (by simpa using hq'.2))
      (by
        intro ut hut p hp
        obtain ⟨q, hq, rfl⟩ := List.mem_map.mp hut
        have hq' := List.mem_filter.mp hq
        have hp' := List.mem_filter.mp hp
        intro hkey
        have := key_unique hnd hp'.1 hq'.1 hkey
        subst this
        rw [hp'.2] at hq'
        simp at hq')
      (by
        rw [List.map_map]
        exact hndS)
    rw [hws2, hrep]
    refine ⟨rfl, ?_, ?_, ?_⟩
    · intro p hp hdef
      unfold lookupDoc
      dsimp only
      rw [List.find?_append]
      have h1 : (ws.documents.filter (fun q => q.2.is_def)).find?
          (fun q => q.1 == p.1) = some (p.1, p.2) :=
        find_key_of_mem hndD (List.mem_filter.mpr ⟨hp, hdef⟩)
      rw [h1]
      rfl
    · intro p hp hscrp
      unfold lookupDoc
      dsimp only
      rw [List.find?_append]
      have h1 : (ws.documents.filter (fun q => q.2.is_def)).find?
          (fun q => q.1 == p.1) = none := by
        rw [List.find?_eq_none]
        intro q hq hqp
        have hq' := List.mem_filter.mp hq
        have : q = p := key_unique hnd hq'.1 hp (by simpa using hqp)
        subst this
        rw [hscrp] at hq'
        simp at hq'
      rw [h1, List.map_map]
      have h2 : ((ws.documents.filter (fun q => !q.2.is_def)).map
          ((fun ut => (ut.1,
              (⟨ctx.parseScript (validOps ctx (newOperators ctx ws.hir)) ut.2,
                false⟩ : DocumentW P))) ∘
            (fun q => (q.1, ctx.parseText q.2.parse)))).find?
          (fun q => q.1 == p.1) =
          some (p.1, ⟨ctx.parseScript (validOps ctx (newOperators ctx ws.hir))
            (ctx.parseText p.2.parse), false⟩) := by
        apply find_key_of_mem
        · rw [List.map_map]
          exact List.Nodup.sublist (List.Sublist.map _ (List.filter_sublist _)) hnd
        · exact List.mem_map_of_mem _ (List.mem_filter.mpr ⟨hp, by simp [hscrp]⟩)
      rw [h2]
      rfl
    · dsimp only
      rw [List.foldl_map]

/-- C1 witness: on an empty workspace the enumerated set equals the
cache, and `check_operators` changes nothing, by the theorem. -/
theorem check_operators_spec_witness :
    check_operators ctxW 1 wsEmpty = wsEmpty :=
  (check_operators_spec ctxW 0 wsEmpty (by simp [wsEmpty]) (by simp [wsEmpty])).1
    (by simp [newOperators, ctxW, wsEmpty])

end Rhai
